import Mathlib

/-!
Verification of the warpdrive object-storage server against its
natural-language specification.

The development shallowly embeds the relevant Rust code:

* `src/server/src/storage/local_store.rs` — the chunk store
  (`LocalXFSBinaryStore::write_data / read_data / verify_object`);
* `src/server/src/metadata/sqlite_store.rs` — the metadata index
  (`haystack` table and `deletion_queue` table);
* `src/server/src/service/metadata_service.rs` and
  `src/server/src/service/mod.rs` — the native request pipeline;
* `src/server/src/s3/handlers.rs` — the S3-compatible handlers.

Byte strings are `List Nat` (each entry a `u8` value), Rust `String`s are
`List Char`.  Machine integers (`u64`) are modelled as `Nat`; file offsets
and sizes never overflow `u64` in the code paths modelled here, and the
theorems that serialize freshly produced offsets carry explicit
`< 256 ^ 8` bounds where they matter.
-/

namespace WD

abbrev Str := List Char
abbrev Bytes := List Nat

/-! ## The manifest codec

Modelled from the spec: the crate `util::serializer`
(`serialize_offset_size` / `deserialize_offset_size`) is referenced by the
service and handler code but its source file is not part of the tree.  The
spec describes it as "a length-prefixed sequence of `(u64 offset, u64 size)`
pairs using a compact framed codec"; we realise it as a little-endian 8-byte
count followed by little-endian 8-byte offset/size pairs, and prove the
round-trip property the spec demands. -/

/-- Little-endian base-256 encoding of a natural number on `k` bytes. -/
def toLE : Nat → Nat → Bytes
  | 0, _ => []
  | k+1, n => n % 256 :: toLE k (n / 256)

/-- Little-endian base-256 decoding of a byte list. -/
def fromLE : Bytes → Nat
  | [] => 0
  | b :: bs => b + 256 * fromLE bs

theorem toLE_length (k n : Nat) : (toLE k n).length = k := by
  induction k generalizing n with
  | zero => rfl
  | succ k ih => simp [toLE, ih]

theorem toLE_lt (k n : Nat) : ∀ b ∈ toLE k n, b < 256 := by
  induction k generalizing n with
  | zero => simp [toLE]
  | succ k ih =>
    intro b hb
    simp only [toLE, List.mem_cons] at hb
    rcases hb with h | h
    · omega
    · exact ih _ b h

theorem fromLE_toLE (k n : Nat) (h : n < 256 ^ k) : fromLE (toLE k n) = n := by
  induction k generalizing n with
  | zero =>
    simp only [pow_zero, Nat.lt_one_iff] at h
    simp [toLE, fromLE, h]
  | succ k ih =>
    have hd : n / 256 < 256 ^ k := by
      apply Nat.div_lt_of_lt_mul
      calc n < 256 ^ (k + 1) := h
        _ = 256 * 256 ^ k := by ring
    simp only [toLE, fromLE, ih _ hd]
    omega

theorem fromLE_lt (bs : Bytes) (h : ∀ b ∈ bs, b < 256) :
    fromLE bs < 256 ^ bs.length := by
  induction bs with
  | nil => simp [fromLE]
  | cons b bs ih =>
    have hb : b < 256 := h b (by simp)
    have ht : fromLE bs < 256 ^ bs.length := ih (fun x hx => h x (by simp [hx]))
    simp only [fromLE, List.length_cons, pow_succ]
    calc b + 256 * fromLE bs < 256 + 256 * fromLE bs := by omega
      _ ≤ 256 * (fromLE bs + 1) := by ring_nf; omega
      _ ≤ 256 * 256 ^ bs.length := by
          apply Nat.mul_le_mul_left
          omega
      _ = 256 ^ bs.length * 256 := by ring

/-- Read one little-endian u64 from the front of a byte list. -/
def readU64 (bs : Bytes) : Option (Nat × Bytes) :=
  if 8 ≤ bs.length ∧ ∀ b ∈ bs.take 8, b < 256 then
    some (fromLE (bs.take 8), bs.drop 8)
  else none

theorem readU64_toLE (n : Nat) (rest : Bytes) (h : n < 256 ^ 8) :
    readU64 (toLE 8 n ++ rest) = some (n, rest) := by
  have hlen : (toLE 8 n).length = 8 := toLE_length 8 n
  have htake : (toLE 8 n ++ rest).take 8 = toLE 8 n := by
    rw [← hlen]; exact List.take_left _ _
  have hdrop : (toLE 8 n ++ rest).drop 8 = rest := by
    rw [← hlen]; exact List.drop_left _ _
  have hcond : 8 ≤ (toLE 8 n ++ rest).length ∧
      ∀ b ∈ (toLE 8 n ++ rest).take 8, b < 256 := by
    constructor
    · simp [hlen]
    · rw [htake]; exact toLE_lt 8 n
  rw [readU64, if_pos hcond, htake, hdrop, fromLE_toLE 8 n h]

/-- Encode a list of `(offset, size)` pairs as consecutive u64 pairs. -/
def encPairs : List (Nat × Nat) → Bytes
  | [] => []
  | (o, s) :: rest => toLE 8 o ++ toLE 8 s ++ encPairs rest

/-- `serialize_offset_size` from `util::serializer` (modelled from the
spec): length-prefixed sequence of `(u64 offset, u64 size)` pairs. -/
def serialize_offset_size (l : List (Nat × Nat)) : Bytes :=
  toLE 8 l.length ++ encPairs l

/-- Read `k` offset/size pairs, requiring the input to be consumed exactly. -/
def readPairs : Nat → Bytes → Option (List (Nat × Nat))
  | 0, bs => if bs = [] then some [] else none
  | k+1, bs =>
    match readU64 bs with
    | none => none
    | some (o, bs1) =>
      match readU64 bs1 with
      | none => none
      | some (s, bs2) =>
        match readPairs k bs2 with
        | none => none
        | some l => some ((o, s) :: l)

/-- `deserialize_offset_size` from `util::serializer` (modelled from the
spec): inverse of `serialize_offset_size`. -/
def deserialize_offset_size (bs : Bytes) : Option (List (Nat × Nat)) :=
  match readU64 bs with
  | none => none
  | some (cnt, rest) => readPairs cnt rest

/-- All offsets and sizes of a manifest fit in a u64. -/
abbrev BoundedManifest (l : List (Nat × Nat)) : Prop :=
  ∀ p ∈ l, p.1 < 256 ^ 8 ∧ p.2 < 256 ^ 8

theorem readPairs_encPairs (l : List (Nat × Nat)) (hb : BoundedManifest l) :
    readPairs l.length (encPairs l) = some l := by
  induction l with
  | nil => simp [readPairs, encPairs]
  | cons p rest ih =>
    obtain ⟨o, s⟩ := p
    have hbp := hb (o, s) (by simp)
    have hrest : BoundedManifest rest := fun q hq => hb q (by simp [hq])
    simp only [List.length_cons, readPairs, encPairs, List.append_assoc,
      readU64_toLE o _ hbp.1, readU64_toLE s _ hbp.2, ih hrest]

/-- Round-trip: deserializing a serialized manifest recovers it, for any
manifest whose entries and length fit in u64 (always true of real data). -/
theorem deserialize_serialize (l : List (Nat × Nat)) (hb : BoundedManifest l)
    (hl : l.length < 256 ^ 8) :
    deserialize_offset_size (serialize_offset_size l) = some l := by
  simp only [deserialize_offset_size, serialize_offset_size,
    readU64_toLE _ _ hl, readPairs_encPairs l hb]

theorem readPairs_length {k : Nat} {bs : Bytes} {l : List (Nat × Nat)}
    (h : readPairs k bs = some l) : l.length = k := by
  induction k generalizing bs l with
  | zero =>
    rw [readPairs] at h
    split at h
    · simp at h; simp [← h]
    · simp at h
  | succ k ih =>
    rw [readPairs] at h
    cases h1 : readU64 bs with
    | none => simp [h1] at h
    | some p1 =>
      obtain ⟨o, bs1⟩ := p1
      simp only [h1] at h
      cases h2 : readU64 bs1 with
      | none => simp [h2] at h
      | some p2 =>
        obtain ⟨s, bs2⟩ := p2
        simp only [h2] at h
        cases h3 : readPairs k bs2 with
        | none => simp [h3] at h
        | some l' =>
          simp only [h3, Option.some.injEq] at h
          have := ih h3
          simp [← h, this]

theorem readU64_lt {bs : Bytes} {n : Nat} {rest : Bytes}
    (h : readU64 bs = some (n, rest)) : n < 256 ^ 8 := by
  rw [readU64] at h
  split at h
  · rename_i hc
    simp only [Option.some.injEq, Prod.mk.injEq] at h
    have hlen : (bs.take 8).length = 8 := by
      simp [List.length_take]; omega
    have := fromLE_lt (bs.take 8) hc.2
    rw [hlen] at this
    omega
  · simp at h

theorem readPairs_bounded {k : Nat} {bs : Bytes} {l : List (Nat × Nat)}
    (h : readPairs k bs = some l) : BoundedManifest l := by
  induction k generalizing bs l with
  | zero =>
    rw [readPairs] at h
    split at h
    · simp only [Option.some.injEq] at h
      intro p hp
      rw [← h] at hp
      simp at hp
    · simp at h
  | succ k ih =>
    rw [readPairs] at h
    cases h1 : readU64 bs with
    | none => simp [h1] at h
    | some p1 =>
      obtain ⟨o, bs1⟩ := p1
      simp only [h1] at h
      cases h2 : readU64 bs1 with
      | none => simp [h2] at h
      | some p2 =>
        obtain ⟨s, bs2⟩ := p2
        simp only [h2] at h
        cases h3 : readPairs k bs2 with
        | none => simp [h3] at h
        | some l' =>
          simp only [h3, Option.some.injEq] at h
          intro p hp
          rw [← h] at hp
          rcases List.mem_cons.mp hp with hp | hp
          · subst hp
            exact ⟨readU64_lt h1, readU64_lt h2⟩
          · exact ih h3 p hp

/-- A manifest blob that deserializes can be re-serialized and deserialized
back to the same manifest (used by the metadata service read/write path). -/
theorem deserialize_reserialize {bs : Bytes} {l : List (Nat × Nat)}
    (h : deserialize_offset_size bs = some l) :
    deserialize_offset_size (serialize_offset_size l) = some l := by
  rw [deserialize_offset_size] at h
  cases h1 : readU64 bs with
  | none => simp [h1] at h
  | some p =>
    obtain ⟨cnt, rest⟩ := p
    simp only [h1] at h
    have hlen : l.length = cnt := readPairs_length h
    exact deserialize_serialize l (readPairs_bounded h) (hlen ▸ readU64_lt h1)

/-! ## System state

The state visible to the modelled code paths: the per-(user,bucket) chunk
logs (`<storage_root>/<user>/<bucket>.bin` files), the `haystack` metadata
table, the `deletion_queue` table, and the storage-layer deletion log
written by `Storage::log_deletion` (a JSON side log / mock log, distinct
from the metadata deletion queue). -/

/-- One row of the `haystack` table (`user, bucket, key, offset_size_list`). -/
structure HRow where
  user : Str
  bucket : Str
  key : Str
  blob : Bytes
deriving DecidableEq, Repr

/-- One row of the `deletion_queue` table. -/
structure QRow where
  qid : Nat
  user : Str
  bucket : Str
  key : Str
  blob : Bytes
  processed : Bool
deriving DecidableEq, Repr

/-- One entry of the storage-layer deletion log (`Storage::log_deletion`). -/
structure DRow where
  user : Str
  bucket : Str
  key : Str
  ranges : List (Nat × Nat)
deriving DecidableEq, Repr

/-- The whole persistent state.  `logs` maps a present `(user, bucket)` log
file to its byte content; an absent entry is an absent file.  `haystack`
and `queue` are kept in rowid (insertion) order, as SQLite returns them. -/
structure Sys where
  logs : List ((Str × Str) × Bytes)
  haystack : List HRow
  queue : List QRow
  nextQid : Nat
  delLog : List DRow
deriving DecidableEq, Repr

/-- First-match association lookup. -/
def assocGet : List ((Str × Str) × Bytes) → Str × Str → Option Bytes
  | [], _ => none
  | (k, v) :: rest, q => if k = q then some v else assocGet rest q

/-- Update-or-append association write. -/
def assocSet : List ((Str × Str) × Bytes) → Str × Str → Bytes →
    List ((Str × Str) × Bytes)
  | [], q, v => [(q, v)]
  | (k, w) :: rest, q, v =>
    if k = q then (k, v) :: rest else (k, w) :: assocSet rest q v

theorem assocGet_set_same (l : List ((Str × Str) × Bytes)) (q : Str × Str)
    (v : Bytes) : assocGet (assocSet l q v) q = some v := by
  induction l with
  | nil => simp [assocSet, assocGet]
  | cons p rest ih =>
    obtain ⟨k, w⟩ := p
    by_cases h : k = q
    · simp [assocSet, assocGet, h]
    · simp [assocSet, assocGet, h, ih]

theorem assocGet_set_other (l : List ((Str × Str) × Bytes)) (q q' : Str × Str)
    (v : Bytes) (h : q ≠ q') : assocGet (assocSet l q v) q' = assocGet l q' := by
  induction l with
  | nil => simp [assocSet, assocGet, h]
  | cons p rest ih =>
    obtain ⟨k, w⟩ := p
    by_cases hk : k = q
    · subst hk
      simp [assocSet, assocGet, h]
    · simp only [assocSet, if_neg hk, assocGet]
      by_cases hk' : k = q' <;> simp [hk', ih]

/-! ## The chunk store (`storage/local_store.rs`, `LocalXFSBinaryStore`) -/

/-- HTTP status codes used by the error mapping of the request pipeline. -/
abbrev Status := Nat

/-- Current length of the `(user, bucket)` log; `0` when the file is absent
(the write path creates the file, and a fresh file has length 0). -/
def logLen (sys : Sys) (u b : Str) : Nat :=
  ((assocGet sys.logs (u, b)).getD []).length

/-- `LocalXFSBinaryStore::write_data`: under the global write lock, open
(create if absent) the bucket file, seek to the end (the returned offset is
the current file length), append `d`, flush, and return
`(offset, d.len())`. -/
def write_data (sys : Sys) (u b : Str) (d : Bytes) : (Nat × Nat) × Sys :=
  let cur := (assocGet sys.logs (u, b)).getD []
  ((cur.length, d.length),
    { sys with logs := assocSet sys.logs (u, b) (cur ++ d) })

/-- `LocalXFSBinaryStore::read_data`: open for read (errors when the file
is absent), seek to `off`, `read_exact` a buffer of `sz` bytes (errors when
the range extends past the end of the file). -/
def read_data (sys : Sys) (u b : Str) (off sz : Nat) : Option Bytes :=
  match assocGet sys.logs (u, b) with
  | none => none
  | some l => if off + sz ≤ l.length then some ((l.drop off).take sz) else none

/-- `LocalXFSBinaryStore::verify_object`: the source does not read any
stored data and computes no hash; it returns `Err(BadRequest)` when the
checksum is all zeros and `Ok(true)` otherwise. -/
def verify_object (_u _b _k : Str) (checksum : Bytes) : Except Status Bool :=
  if ∀ c ∈ checksum, c = 0 then Except.error 400 else Except.ok true

/-- `storage::delete_and_log` → `Storage::log_deletion`: record the
released ranges in the storage-layer deletion log.  This does not touch
the metadata `deletion_queue` table. -/
def delete_and_log (sys : Sys) (u b k : Str) (ranges : List (Nat × Nat)) :
    Sys :=
  { sys with delLog := sys.delLog ++ [⟨u, b, k, ranges⟩] }

/-! ## The metadata index (`metadata/sqlite_store.rs`, `SQLiteMetadataStore`) -/

/-- Row predicate for `WHERE user = ?1 AND bucket = ?2 AND key = ?3`. -/
def rowMatches (u b k : Str) (r : HRow) : Bool :=
  decide (r.user = u ∧ r.bucket = b ∧ r.key = k)

def findRow (sys : Sys) (u b k : Str) : Option HRow :=
  sys.haystack.find? (rowMatches u b k)

/-- `object_exists`: `SELECT COUNT(*) ... > 0`. -/
def object_exists (sys : Sys) (u b k : Str) : Bool :=
  (findRow sys u b k).isSome

/-- `put_metadata`: plain `INSERT`, which fails (surfacing as a 500) when
the `UNIQUE(user, bucket, key)` constraint is violated. -/
def put_metadata (sys : Sys) (u b k : Str) (blob : Bytes) :
    Except Status Sys :=
  if object_exists sys u b k then Except.error 500
  else Except.ok { sys with haystack := sys.haystack ++ [⟨u, b, k, blob⟩] }

/-- `get_metadata`: `SELECT offset_size_list` (`NotFound` when the row is
absent) followed by `deserialize_offset_size`. -/
def get_metadata (sys : Sys) (u b k : Str) :
    Except Status (List (Nat × Nat)) :=
  match findRow sys u b k with
  | none => Except.error 404
  | some r =>
    match deserialize_offset_size r.blob with
    | none => Except.error 400
    | some l => Except.ok l

/-- `delete_metadata`: `DELETE FROM haystack WHERE ...`; succeeds even when
the row is absent. -/
def delete_metadata (sys : Sys) (u b k : Str) : Sys :=
  { sys with haystack := sys.haystack.filter (fun r => !(rowMatches u b k r)) }

/-- `list_objects`: `SELECT key FROM haystack WHERE user AND bucket`, in
rowid (insertion) order. -/
def list_objects (sys : Sys) (u b : Str) : List Str :=
  (sys.haystack.filter (fun r => decide (r.user = u ∧ r.bucket = b))).map
    (fun r => r.key)

/-- `update_object_id` (rename): `UPDATE haystack SET key = new WHERE
user, bucket, key = old`.  The statement violates the
`UNIQUE(user, bucket, key)` constraint — surfacing as a 500 — exactly when
a row with the old key is updated while a distinct row already holds the
new key; renaming zero rows or renaming a key to itself succeeds. -/
def update_object_id (sys : Sys) (u b oldk newk : Str) : Except Status Sys :=
  let f : HRow → HRow :=
    fun r => if rowMatches u b oldk r then { r with key := newk } else r
  if object_exists sys u b oldk ∧ object_exists sys u b newk ∧ oldk ≠ newk
  then Except.error 500
  else Except.ok { sys with haystack := sys.haystack.map f }

/-- `SQLiteMetadataStore::queue_deletion`: `INSERT INTO deletion_queue`
with an autoincrement id, the serialized range list, and `processed`
defaulting to `FALSE`. -/
def store_queue_deletion (sys : Sys) (u b k : Str)
    (ranges : List (Nat × Nat)) : Sys :=
  { sys with
    queue := sys.queue ++
      [⟨sys.nextQid, u, b, k, serialize_offset_size ranges, false⟩],
    nextQid := sys.nextQid + 1 }

/-! ## Claim C1 -/

/-- Claim C1: for every successful chunk-store write
`(o, s) = write_data(user, bucket, d)`: `s = len(d)`; `o` equals the length
of the `(user, bucket)` log immediately before the write; a subsequent
`read_data(user, bucket, o, s)` with no intervening failure returns exactly
`d`; and an empty `d` is permitted and returns `(current log length, 0)`. -/
theorem C1_chunk_write_read (sys : Sys) (u b : Str) (d : Bytes) :
    (write_data sys u b d).1.2 = d.length ∧
    (write_data sys u b d).1.1 = logLen sys u b ∧
    read_data (write_data sys u b d).2 u b
      (write_data sys u b d).1.1 (write_data sys u b d).1.2 = some d ∧
    (d = [] → (write_data sys u b d).1 = (logLen sys u b, 0)) := by
  refine ⟨rfl, rfl, ?_, ?_⟩
  · simp only [write_data, read_data, assocGet_set_same]
    rw [if_pos (by simp)]
    simp
  · intro hd
    simp [write_data, logLen, hd]

/-! ## The service layer (`service/user_context.rs`, `service/metadata_service.rs`) -/

/-- `UserContext` from `service/user_context.rs`. -/
structure UserContext where
  user_id : Str
  bucket : Str
  metadata : List (Str × Str)
deriving DecidableEq, Repr

/-- An HTTP response, reduced to the status code and the body bytes the
claims inspect.  Typed errors map to statuses: BadRequest 400,
Unauthorized 401, NotFound 404, Conflict 409, InternalError 500. -/
structure Resp where
  status : Status
  body : Bytes
deriving DecidableEq, Repr

/-- `MetadataService::check_key`. -/
def check_key (sys : Sys) (ctx : UserContext) (k : Str) : Bool :=
  object_exists sys ctx.user_id ctx.bucket k

/-- `MetadataService::queue_deletion`: queue the deletion task, then delete
the metadata record, in that order. -/
def mdQueueDeletion (sys : Sys) (u b k : Str) (ranges : List (Nat × Nat)) :
    Sys :=
  delete_metadata (store_queue_deletion sys u b k ranges) u b k

/-- `MetadataService::write_metadata`: deserialize the blob into a
`Metadata`, then `put_metadata` (which re-serializes the manifest). -/
def service_write_metadata (sys : Sys) (ctx : UserContext) (k : Str)
    (blob : Bytes) : Except Status Sys :=
  match deserialize_offset_size blob with
  | none => Except.error 400
  | some l => put_metadata sys ctx.user_id ctx.bucket k
      (serialize_offset_size l)

/-- `MetadataService::read_metadata`: `get_metadata` then re-serialize the
manifest. -/
def service_read_metadata (sys : Sys) (ctx : UserContext) (k : Str) :
    Except Status Bytes :=
  match get_metadata sys ctx.user_id ctx.bucket k with
  | Except.error e => Except.error e
  | Except.ok l => Except.ok (serialize_offset_size l)

/-! ## Request headers and `header_handler` (`service/mod.rs`) -/

/-- A header map: names (stored lowercased, as actix-web normalizes them)
paired with raw byte values. -/
abbrev Headers := List (Str × Bytes)

/-- First-match header lookup; actix header-name lookup is
case-insensitive, modelled as lookup of the lowercased name. -/
def hdrGet : Headers → Str → Option Bytes
  | [], _ => none
  | (n, v) :: rest, q => if n = q then some v else hdrGet rest q

/-- `HeaderValue::to_str`: succeeds exactly when every byte is visible
ASCII (32..=126), in which case the value is read as a string. -/
def hdrToStr (v : Bytes) : Option Str :=
  if ∀ c ∈ v, 32 ≤ c ∧ c ≤ 126 then some (v.map Char.ofNat) else none

def hUser : Str := ['u', 's', 'e', 'r']

def hBucket : Str := ['b', 'u', 'c', 'k', 'e', 't']

def defaultBucket : Str := ['d', 'e', 'f', 'a', 'u', 'l', 't']

/-- `header_handler` from `service/mod.rs`: the `User` header is required
and must convert to a string (else `BadRequest`); the `Bucket` header
defaults to `"default"`; every other convertible header lands in the
context's metadata map.  No emptiness check is performed on the user id. -/
def header_handler (hs : Headers) : Except Status UserContext :=
  match hdrGet hs hUser with
  | none => Except.error 400
  | some v =>
    match hdrToStr v with
    | none => Except.error 400
    | some uid =>
      let bucket :=
        match hdrGet hs hBucket with
        | none => defaultBucket
        | some bv =>
          match hdrToStr bv with
          | none => defaultBucket
          | some s => s
      let md := hs.filterMap (fun p =>
        match hdrToStr p.2 with
        | none => none
        | some s =>
          if p.1 ≠ hUser ∧ p.1 ≠ hBucket then some (p.1, s) else none)
      Except.ok ⟨uid, bucket, md⟩

/-! ## Native services (`service/mod.rs`) -/

/-- Sequential framed-mode writes: one `write_data` per decoded sub-blob,
collecting the returned `(offset, size)` pairs in order. -/
def writeFiles (sys : Sys) (u b : Str) : List Bytes → List (Nat × Nat) × Sys
  | [] => ([], sys)
  | d :: rest =>
    let r := write_data sys u b d
    let rs := writeFiles r.2 u b rest
    (r.1 :: rs.1, rs.2)

/-- `storage::write_files_to_storage` in framed (flatbuffers) mode.  The
flatbuffers `FileDataList` codec lives in a generated module outside the
tree; per the spec it is an opaque framing codec, so the decoder is a
parameter `dec` (`none` = malformed frame, rejected before any write). -/
def write_files_to_storage (dec : Bytes → Option (List Bytes)) (sys : Sys)
    (ctx : UserContext) (body : Bytes) :
    Except Status (List (Nat × Nat) × Sys) :=
  match dec body with
  | none => Except.error 400
  | some files => Except.ok (writeFiles sys ctx.user_id ctx.bucket files)

/-- `put_service`: derive the context, reject when the key already exists
(`400 "Key already exists"`), reject an empty payload, framed-mode write,
serialize the manifest, `write_metadata`. -/
def put_service (dec : Bytes → Option (List Bytes)) (sys : Sys)
    (hs : Headers) (k : Str) (payload : Bytes) : Resp × Sys :=
  match header_handler hs with
  | Except.error e => (⟨e, []⟩, sys)
  | Except.ok ctx =>
    if check_key sys ctx k then (⟨400, []⟩, sys)
    else if payload = [] then (⟨400, []⟩, sys)
    else
      match write_files_to_storage dec sys ctx payload with
      | Except.error e => (⟨e, []⟩, sys)
      | Except.ok (list, sys1) =>
        if list = [] then (⟨400, []⟩, sys1)
        else
          match service_write_metadata sys1 ctx k
            (serialize_offset_size list) with
          | Except.error e => (⟨e, []⟩, sys1)
          | Except.ok sys2 => (⟨200, []⟩, sys2)

/-- `delete_service`: derive the context, 404 when the key is absent, read
and deserialize the manifest, then `MetadataService::queue_deletion`
(queue insert followed by record delete). -/
def delete_service (sys : Sys) (hs : Headers) (k : Str) : Resp × Sys :=
  match header_handler hs with
  | Except.error e => (⟨e, []⟩, sys)
  | Except.ok ctx =>
    if ¬check_key sys ctx k then (⟨404, []⟩, sys)
    else
      match service_read_metadata sys ctx k with
      | Except.error _ => (⟨400, []⟩, sys)
      | Except.ok bytes =>
        match deserialize_offset_size bytes with
        | none => (⟨400, []⟩, sys)
        | some ranges =>
          (⟨200, []⟩, mdQueueDeletion sys ctx.user_id ctx.bucket k ranges)

/-- `update_key_service`: derive the context, 404 when the old key is
absent, then `rename_key` → `update_object_id`; a failed rename surfaces
as a 500 `InternalServerError`. -/
def update_key_service (sys : Sys) (hs : Headers) (oldk newk : Str) :
    Resp × Sys :=
  match header_handler hs with
  | Except.error e => (⟨e, []⟩, sys)
  | Except.ok ctx =>
    if ¬check_key sys ctx oldk then (⟨404, []⟩, sys)
    else
      match update_object_id sys ctx.user_id ctx.bucket oldk newk with
      | Except.error _ => (⟨500, []⟩, sys)
      | Except.ok sys1 => (⟨200, []⟩, sys1)

/-! ## Helper lemmas on the metadata table -/

theorem find?_filter_not (l : List HRow) (p : HRow → Bool) :
    (l.filter (fun r => !(p r))).find? p = none := by
  rw [List.find?_eq_none]
  intro x hx hpx
  rw [List.mem_filter, hpx] at hx
  simp at hx

theorem object_exists_delete_self (sys : Sys) (u b k : Str) :
    object_exists (delete_metadata sys u b k) u b k = false := by
  simp [object_exists, findRow, delete_metadata, find?_filter_not]

/-- After `UPDATE ... SET key = new WHERE key = old`, the first row that
held the old key is found under the new key with its blob unchanged,
provided no row held the new key before. -/
theorem find?_rename_new (l : List HRow) (u b oldk newk : Str)
    (hnew : ∀ x ∈ l, rowMatches u b newk x = false)
    (r : HRow) (h : l.find? (rowMatches u b oldk) = some r) :
    (l.map (fun x => if rowMatches u b oldk x then { x with key := newk }
      else x)).find? (rowMatches u b newk) = some { r with key := newk } := by
  induction l with
  | nil => simp at h
  | cons a l ih =>
    cases ha : rowMatches u b oldk a with
    | true =>
      rw [List.find?_cons_of_pos _ ha, Option.some.injEq] at h
      rw [← h]
      have hub : a.user = u ∧ a.bucket = b := by
        have := of_decide_eq_true ha
        exact ⟨this.1, this.2.1⟩
      have hm : rowMatches u b newk { a with key := newk } = true := by
        simp [rowMatches, hub.1, hub.2]
      rw [List.map_cons, if_pos ha, List.find?_cons_of_pos _ hm]
    | false =>
      rw [List.find?_cons_of_neg _ (by simp [ha])] at h
      have hna : rowMatches u b newk a = false := hnew a (by simp)
      rw [List.map_cons, if_neg (by simp [ha])]
      rw [List.find?_cons_of_neg _ (by simp [hna])]
      exact ih (fun x hx => hnew x (by simp [hx])) h

/-- After the rename, no row holds the old key any more. -/
theorem find?_rename_old (l : List HRow) (u b oldk newk : Str)
    (hne : oldk ≠ newk) :
    (l.map (fun x => if rowMatches u b oldk x then { x with key := newk }
      else x)).find? (rowMatches u b oldk) = none := by
  rw [List.find?_eq_none]
  intro x hx
  rw [List.mem_map] at hx
  obtain ⟨y, hyl, hy⟩ := hx
  subst hy
  intro hpx
  cases hm : rowMatches u b oldk y with
  | true =>
    rw [if_pos hm] at hpx
    have := of_decide_eq_true hpx
    exact hne this.2.2.symm
  | false =>
    rw [if_neg (by simp [hm])] at hpx
    rw [hpx] at hm
    cases hm

/-! ## Shared concrete states for witnesses -/

def rowA : HRow := ⟨['a'], defaultBucket, ['k'], serialize_offset_size [(0, 3)]⟩

def sysA : Sys := ⟨[], [rowA], [], 0, []⟩

def ctxA : UserContext := ⟨['a'], defaultBucket, []⟩

def hsA : Headers := [(hUser, [97])]

/-! ## Claim C3 -/

/-- Claim C3: for every native DELETE of an existing key that returns 200:
afterwards the key no longer exists in the metadata index; exactly one
`DeletionTask` row holding the key's former ranges was appended to the
deletion queue; and the queue insert precedes the record delete (the final
state is the record delete applied to the queue-insert state, and the
intermediate queue-insert state still holds the record). -/
theorem C3_native_delete_queue (sys : Sys) (hs : Headers) (k : Str)
    (ctx : UserContext) (hh : header_handler hs = Except.ok ctx)
    (r : HRow) (hr : findRow sys ctx.user_id ctx.bucket k = some r)
    (ranges : List (Nat × Nat))
    (hd : deserialize_offset_size r.blob = some ranges) :
    (delete_service sys hs k).1.status = 200 ∧
    object_exists (delete_service sys hs k).2 ctx.user_id ctx.bucket k
      = false ∧
    (delete_service sys hs k).2.queue = sys.queue ++
      [⟨sys.nextQid, ctx.user_id, ctx.bucket, k,
        serialize_offset_size ranges, false⟩] ∧
    object_exists (store_queue_deletion sys ctx.user_id ctx.bucket k ranges)
      ctx.user_id ctx.bucket k = true ∧
    (delete_service sys hs k).2 = delete_metadata
      (store_queue_deletion sys ctx.user_id ctx.bucket k ranges)
      ctx.user_id ctx.bucket k := by
  have hck : check_key sys ctx k = true := by
    simp [check_key, object_exists, hr]
  have hsrm : service_read_metadata sys ctx k =
      Except.ok (serialize_offset_size ranges) := by
    simp [service_read_metadata, get_metadata, hr, hd]
  have hdd := deserialize_reserialize hd
  simp only [delete_service, hh, hck, hsrm, hdd, Bool.not_true, Bool.false_eq_true,
    if_false]
  refine ⟨rfl, ?_, ?_, ?_, rfl⟩
  · exact object_exists_delete_self _ _ _ _
  · simp [mdQueueDeletion, delete_metadata, store_queue_deletion]
  · have hhay : (store_queue_deletion sys ctx.user_id ctx.bucket k
        ranges).haystack = sys.haystack := rfl
    simp only [object_exists, findRow, hhay]
    rw [show sys.haystack.find? (rowMatches ctx.user_id ctx.bucket k)
      = some r from hr]
    rfl

/-- Witness for C3 at a concrete one-row state. -/
theorem C3_native_delete_queue_witness :
    (delete_service sysA hsA ['k']).1.status = 200 ∧
    object_exists (delete_service sysA hsA ['k']).2 ctxA.user_id
      ctxA.bucket ['k'] = false ∧
    (delete_service sysA hsA ['k']).2.queue = sysA.queue ++
      [⟨sysA.nextQid, ctxA.user_id, ctxA.bucket, ['k'],
        serialize_offset_size [(0, 3)], false⟩] ∧
    object_exists
      (store_queue_deletion sysA ctxA.user_id ctxA.bucket ['k'] [(0, 3)])
      ctxA.user_id ctxA.bucket ['k'] = true ∧
    (delete_service sysA hsA ['k']).2 = delete_metadata
      (store_queue_deletion sysA ctxA.user_id ctxA.bucket ['k'] [(0, 3)])
      ctxA.user_id ctxA.bucket ['k'] :=
  C3_native_delete_queue sysA hsA ['k'] ctxA (by rfl) rowA (by rfl)
    [(0, 3)] (deserialize_serialize [(0, 3)] (by decide) (by decide))

/-! ## Claim C5 -/

/-- Claim C5 records a code bug: the spec says `verify` reads the stored
range and reports whether its SHA-256 equals the checksum, and the
source's own comment says a real implementation must read the data and
verify the checksum — but the shipped code computes no hash and reads
nothing.  It accepts two different checksums for the same object (which no
digest comparison can do) and errors on the all-zero checksum. -/
theorem C5_verify_computes_no_hash :
    verify_object ['u'] ['b'] ['k'] [1] = Except.ok true ∧
    verify_object ['u'] ['b'] ['k'] [2] = Except.ok true ∧
    (([1] : Bytes) ≠ [2]) ∧
    verify_object ['u'] ['b'] ['k'] (List.replicate 32 0)
      = Except.error 400 := by
  refine ⟨rfl, rfl, by decide, by rfl⟩

/-! ## Claim C7 -/

/-- Counterexample to claim C7 as stated: a native put on an existing key
answers 400 `BadRequest` ("Key already exists"), not 409 `Conflict`. -/
theorem C7_put_conflict_counterexample :
    (put_service (fun _ => none) sysA hsA ['k'] [1]).1.status = 400 ∧
    (put_service (fun _ => none) sysA hsA ['k'] [1]).1.status ≠ 409 := by
  decide

/-- Claim C7 as amended: a native put on a `(user, bucket, key)` triple
already present in the metadata index fails with 400 `BadRequest`
("Key already exists"), and no data is written (the state is unchanged).
The check happens before the payload is read, for any framing decoder. -/
theorem C7_put_existing_key (dec : Bytes → Option (List Bytes)) (sys : Sys)
    (hs : Headers) (k : Str) (payload : Bytes) (ctx : UserContext)
    (hh : header_handler hs = Except.ok ctx)
    (hex : check_key sys ctx k = true) :
    (put_service dec sys hs k payload).1.status = 400 ∧
    (put_service dec sys hs k payload).2 = sys := by
  simp [put_service, hh, hex]

/-- Witness for the amended C7. -/
theorem C7_put_existing_key_witness :
    (put_service (fun _ => none) sysA hsA ['k'] [1]).1.status = 400 ∧
    (put_service (fun _ => none) sysA hsA ['k'] [1]).2 = sysA :=
  C7_put_existing_key (fun _ => none) sysA hsA ['k'] [1] ctxA (by rfl)
    (by rfl)

/-! ## Claim C8 -/

def rowO : HRow := ⟨['a'], defaultBucket, ['o'], serialize_offset_size [(0, 1)]⟩

def rowN : HRow := ⟨['a'], defaultBucket, ['n'], serialize_offset_size [(1, 1)]⟩

def sysC8 : Sys := ⟨[], [rowO, rowN], [], 0, []⟩

/-- Counterexample to claim C8 as stated: renaming onto an occupied key
fails with 500 `InternalServerError` (the bare SQL `UPDATE` trips the
uniqueness constraint and the service maps the error to 500), not with
409 `Conflict`. -/
theorem C8_rename_conflict_counterexample :
    (update_key_service sysC8 hsA ['o'] ['n']).1.status = 500 ∧
    (update_key_service sysC8 hsA ['o'] ['n']).1.status ≠ 409 := by
  decide

/-- Claim C8 as amended: rename fails with 404 `NotFound` when the old key
is absent; when the new key is occupied (and differs from the old key) it
fails with 500 `InternalServerError` and changes nothing; on success the
old key is absent and the new key resolves to the old key's manifest blob
unchanged. -/
theorem C8_rename_semantics (sys : Sys) (hs : Headers) (oldk newk : Str)
    (ctx : UserContext) (hh : header_handler hs = Except.ok ctx) :
    (object_exists sys ctx.user_id ctx.bucket oldk = false →
      (update_key_service sys hs oldk newk).1.status = 404 ∧
      (update_key_service sys hs oldk newk).2 = sys) ∧
    (object_exists sys ctx.user_id ctx.bucket oldk = true →
      object_exists sys ctx.user_id ctx.bucket newk = true → oldk ≠ newk →
      (update_key_service sys hs oldk newk).1.status = 500 ∧
      (update_key_service sys hs oldk newk).2 = sys) ∧
    (∀ r, findRow sys ctx.user_id ctx.bucket oldk = some r →
      object_exists sys ctx.user_id ctx.bucket newk = false →
      (update_key_service sys hs oldk newk).1.status = 200 ∧
      findRow (update_key_service sys hs oldk newk).2 ctx.user_id ctx.bucket
        newk = some { r with key := newk } ∧
      object_exists (update_key_service sys hs oldk newk).2 ctx.user_id
        ctx.bucket oldk = false) := by
  refine ⟨?_, ?_, ?_⟩
  · intro habs
    simp [update_key_service, hh, check_key, habs]
  · intro hold hnew hne
    simp [update_key_service, hh, check_key, hold, update_object_id, hnew,
      hne]
  · intro r hr hnewf
    have hck : check_key sys ctx oldk = true := by
      simp [check_key, object_exists, hr]
    have hne : oldk ≠ newk := by
      intro he
      rw [he] at hr
      simp [object_exists, hr] at hnewf
    have hnewlist : ∀ x ∈ sys.haystack,
        rowMatches ctx.user_id ctx.bucket newk x = false := by
      intro x hx
      have := List.find?_eq_none.mp
        (by simpa [object_exists, findRow] using hnewf) x hx
      exact Bool.not_eq_true _ ▸ (by simpa using this)
    have hupd : update_key_service sys hs oldk newk =
        (⟨200, []⟩, { sys with haystack := sys.haystack.map (fun x =>
          if rowMatches ctx.user_id ctx.bucket oldk x
          then { x with key := newk } else x) }) := by
      simp [update_key_service, hh, hck, update_object_id, hnewf]
    rw [hupd]
    refine ⟨rfl, ?_, ?_⟩
    · simp only [findRow]
      exact find?_rename_new sys.haystack ctx.user_id ctx.bucket oldk newk
        hnewlist r hr
    · simp only [object_exists, findRow]
      rw [find?_rename_old sys.haystack ctx.user_id ctx.bucket oldk newk hne]
      rfl

/-- Witness for the amended C8: successful rename branch at a one-row
state. -/
theorem C8_rename_semantics_witness :
    (update_key_service sysA hsA ['k'] ['n']).1.status = 200 ∧
    findRow (update_key_service sysA hsA ['k'] ['n']).2 ctxA.user_id
      ctxA.bucket ['n'] = some { rowA with key := ['n'] } ∧
    object_exists (update_key_service sysA hsA ['k'] ['n']).2 ctxA.user_id
      ctxA.bucket ['k'] = false :=
  (C8_rename_semantics sysA hsA ['k'] ['n'] ctxA (by rfl)).2.2 rowA
    (by rfl) (by rfl)

/-! ## Claim C9 -/

/-- The user id carried by a successful tenant derivation. -/
def ctxUser (e : Except Status UserContext) : Option Str :=
  match e with
  | Except.ok c => some c.user_id
  | Except.error _ => none

/-- Counterexample to claim C9 as stated: a present, visible-ASCII but
empty `User` header passes tenant derivation with `user_id = ""` (the
source's own unit test asserts exactly this behavior), so native
operations can execute with an empty user id. -/
theorem C9_empty_user_counterexample :
    header_handler [(hUser, [])] = Except.ok ⟨[], defaultBucket, []⟩ ∧
    (UserContext.mk [] defaultBucket []).user_id = ([] : Str) :=
  ⟨by rfl, rfl⟩

/-- Claim C9 as amended: a missing or non-visible-ASCII `User` header
fails with 400 `BadRequest`; otherwise tenant derivation succeeds and the
resulting `user_id` is exactly the header value — which may be the empty
string (no non-emptiness is enforced). -/
theorem C9_header_derivation (hs : Headers) :
    (hdrGet hs hUser = none → header_handler hs = Except.error 400) ∧
    (∀ v, hdrGet hs hUser = some v → hdrToStr v = none →
      header_handler hs = Except.error 400) ∧
    (∀ v s, hdrGet hs hUser = some v → hdrToStr v = some s →
      ctxUser (header_handler hs) = some s) := by
  refine ⟨fun h => by simp [header_handler, h], ?_, ?_⟩
  · intro v h1 h2
    simp [header_handler, h1, h2]
  · intro v s h1 h2
    simp [header_handler, h1, h2, ctxUser]

/-- Witness for the amended C9. -/
theorem C9_header_derivation_witness :
    hdrGet [(hUser, [117])] hUser = some [117] ∧
    hdrToStr [117] = some ['u'] ∧
    ctxUser (header_handler [(hUser, [117])]) = some ['u'] :=
  ⟨by rfl, by rfl,
    (C9_header_derivation [(hUser, [117])]).2.2 [117] ['u'] (by rfl)
      (by rfl)⟩

/-! ## S3 storage helpers and handler building blocks (`s3/handlers.rs`)

The handlers run after `authenticate_s3_request` has succeeded; `u` is the
derived `"s3_user_" + access_key` user id and `b` the bucket taken from
the request path.  The helpers `write_s3_data_to_storage` and
`get_s3_data_from_storage` the handlers call are the opaque (S3) mode of
the in-tree unified storage functions (`storage/mod.rs`,
`write_files_to_storage` / `get_files_from_storage` with
`is_s3_compatible = true`). -/

/-- Opaque-mode write: one chunk-store write of the whole body; the
manifest is the single returned range. -/
def write_s3_data_to_storage (sys : Sys) (u b : Str) (body : Bytes) :
    List (Nat × Nat) × Sys :=
  let r := write_data sys u b body
  ([r.1], r.2)

/-- Positional reads of a range list, concatenated in order; `none` when
any read fails. -/
def readRanges (sys : Sys) (u b : Str) : List (Nat × Nat) → Option Bytes
  | [] => some []
  | (o, s) :: rest =>
    match read_data sys u b o s with
    | none => none
    | some d =>
      match readRanges sys u b rest with
      | none => none
      | some ds => some (d ++ ds)

/-- Opaque-mode read: `BadRequest` on an empty range list, otherwise the
in-order concatenation of the positional reads (one range in the normal
case); read failures surface as `InternalError`. -/
def get_s3_data_from_storage (sys : Sys) (u b : Str)
    (l : List (Nat × Nat)) : Except Status Bytes :=
  if l = [] then Except.error 400
  else
    match readRanges sys u b l with
    | none => Except.error 500
    | some d => Except.ok d

/-- The S3 handlers' `MetadataService::read_metadata` (keyed by the
construction-time user, then bucket and key): the stored manifest blob,
`NotFound` when absent. -/
def db_read_metadata (sys : Sys) (u b k : Str) : Except Status Bytes :=
  match findRow sys u b k with
  | none => Except.error 404
  | some r => Except.ok r.blob

/-- Overwrite prelude shared by the S3 PUT and COPY handlers: when the key
exists, read its manifest, hand the old ranges to the storage-layer
deletion log (`storage::delete_and_log`), then delete the metadata
record — in that order, before any new data is written.  No task is
inserted into the metadata `deletion_queue`. -/
def s3_overwrite_prep (sys : Sys) (u b k : Str) : Except Status Sys :=
  match findRow sys u b k with
  | none => Except.ok sys
  | some r =>
    match deserialize_offset_size r.blob with
    | none => Except.error 400
    | some ranges =>
      Except.ok (delete_metadata (delete_and_log sys u b k ranges) u b k)

/-- `s3_put_object_handler` (plain PUT branch, after authentication):
reject an empty payload with 400; when the key exists, storage-log and
delete the old object; opaque-mode write; store the new single-range
manifest. -/
def s3_put_object (sys : Sys) (u b k : Str) (body : Bytes) : Resp × Sys :=
  if body = [] then (⟨400, []⟩, sys)
  else
    match s3_overwrite_prep sys u b k with
    | Except.error e => (⟨e, []⟩, sys)
    | Except.ok sys1 =>
      let w := write_s3_data_to_storage sys1 u b body
      if w.1 = [] then (⟨400, []⟩, w.2)
      else
        match put_metadata w.2 u b k (serialize_offset_size w.1) with
        | Except.error e => (⟨e, []⟩, w.2)
        | Except.ok sys2 => (⟨200, []⟩, sys2)

/-- `s3_get_object_handler` (after authentication): 404 when the key is
absent, otherwise deserialize the manifest and return the opaque bytes. -/
def s3_get_object (sys : Sys) (u b k : Str) : Resp × Sys :=
  if ¬object_exists sys u b k then (⟨404, []⟩, sys)
  else
    match db_read_metadata sys u b k with
    | Except.error e => (⟨e, []⟩, sys)
    | Except.ok blob =>
      match deserialize_offset_size blob with
      | none => (⟨400, []⟩, sys)
      | some l =>
        match get_s3_data_from_storage sys u b l with
        | Except.error e => (⟨e, []⟩, sys)
        | Except.ok d => (⟨200, d⟩, sys)

/-- Reading the range just written by `write_data` returns the written
bytes. -/
theorem read_after_write (sys : Sys) (u b : Str) (d : Bytes) :
    read_data (write_data sys u b d).2 u b (logLen sys u b) d.length
      = some d := by
  simp only [write_data, read_data, assocGet_set_same, logLen]
  rw [if_pos (by simp)]
  simp

/-- `find?` over an appended list when the first part has no match. -/
theorem find?_append_none {α : Type} {l1 l2 : List α} {p : α → Bool}
    (h : l1.find? p = none) : (l1 ++ l2).find? p = l2.find? p := by
  induction l1 with
  | nil => simp
  | cons a l ih =>
    cases hpa : p a with
    | true => rw [List.find?_cons_of_pos _ hpa] at h; cases h
    | false =>
      rw [List.find?_cons_of_neg _ (by simp [hpa])] at h
      rw [List.cons_append, List.find?_cons_of_neg _ (by simp [hpa])]
      exact ih h

/-- `find?` over an appended list when the first part already matches. -/
theorem find?_append_some {α : Type} {l1 l2 : List α} {p : α → Bool}
    {r : α} (h : l1.find? p = some r) : (l1 ++ l2).find? p = some r := by
  induction l1 with
  | nil => simp at h
  | cons a l ih =>
    cases hpa : p a with
    | true =>
      rw [List.find?_cons_of_pos _ hpa] at h
      rw [List.cons_append, List.find?_cons_of_pos _ hpa]
      exact h
    | false =>
      rw [List.find?_cons_of_neg _ (by simp [hpa])] at h
      rw [List.cons_append, List.find?_cons_of_neg _ (by simp [hpa])]
      exact ih h

/-! ## Claim C2 -/

def sysC2 : Sys :=
  ⟨[((['s'], ['m']), [5, 6])],
   [⟨['s'], ['m'], ['k'], serialize_offset_size [(0, 2)]⟩], [], 0, []⟩

/-- Counterexample to claim C2 as stated: overwriting an existing S3
object succeeds (200) but leaves the metadata `deletion_queue` empty — no
`DeletionTask` row referencing the overwritten object's former ranges is
ever created by the S3 PUT path (it calls the storage-layer
`delete_and_log`, not `MetadataService::queue_deletion`). -/
theorem C2_s3_overwrite_counterexample :
    (s3_put_object sysC2 ['s'] ['m'] ['k'] [9]).1.status = 200 ∧
    (s3_put_object sysC2 ['s'] ['m'] ['k'] [9]).2.queue = [] := by
  decide

/-- Claim C2 as amended: on an S3 PUT over an existing key the handler
hands the old manifest's ranges to the storage-layer deletion log
(`Storage::log_deletion`) and deletes the old metadata record, in that
order, before writing the new data; the metadata `deletion_queue` table is
left unchanged — no `DeletionTask` is created.  The new manifest is the
single freshly written range and the new bytes read back. -/
theorem C2_s3_overwrite_no_queue_task (sys : Sys) (u b k : Str)
    (body : Bytes) (hbody : body ≠ []) (r : HRow)
    (hr : findRow sys u b k = some r) (ranges : List (Nat × Nat))
    (hd : deserialize_offset_size r.blob = some ranges) :
    (s3_put_object sys u b k body).1.status = 200 ∧
    (s3_put_object sys u b k body).2.queue = sys.queue ∧
    (s3_put_object sys u b k body).2.delLog =
      sys.delLog ++ [⟨u, b, k, ranges⟩] ∧
    (delete_and_log sys u b k ranges).logs = sys.logs ∧
    object_exists (delete_metadata (delete_and_log sys u b k ranges) u b k)
      u b k = false ∧
    findRow (s3_put_object sys u b k body).2 u b k =
      some ⟨u, b, k, serialize_offset_size [(logLen sys u b, body.length)]⟩ ∧
    read_data (s3_put_object sys u b k body).2 u b (logLen sys u b)
      body.length = some body := by
  have hprep : s3_overwrite_prep sys u b k = Except.ok
      (delete_metadata (delete_and_log sys u b k ranges) u b k) := by
    simp [s3_overwrite_prep, hr, hd]
  have hpdel : object_exists
      (delete_metadata (delete_and_log sys u b k ranges) u b k) u b k
      = false := object_exists_delete_self _ _ _ _
  have hex2 : object_exists (write_data
      (delete_metadata (delete_and_log sys u b k ranges) u b k) u b
      body).2 u b k = false := hpdel
  have hnone : ((delete_metadata (delete_and_log sys u b k ranges) u b
      k).haystack).find? (rowMatches u b k) = none := by
    cases hfind : ((delete_metadata (delete_and_log sys u b k ranges) u b
        k).haystack).find? (rowMatches u b k) with
    | none => rfl
    | some x =>
      rw [show object_exists (delete_metadata (delete_and_log sys u b k
        ranges) u b k) u b k = ((delete_metadata (delete_and_log sys u b k
        ranges) u b k).haystack.find? (rowMatches u b k)).isSome from rfl,
        hfind] at hpdel
      simp at hpdel
  have hrun : s3_put_object sys u b k body = (⟨200, []⟩,
      { (write_data (delete_metadata (delete_and_log sys u b k ranges)
          u b k) u b body).2 with
        haystack := (write_data (delete_metadata (delete_and_log sys u b k
          ranges) u b k) u b body).2.haystack ++
          [⟨u, b, k, serialize_offset_size [(write_data (delete_metadata
            (delete_and_log sys u b k ranges) u b k) u b body).1]⟩] }) := by
    simp only [s3_put_object, if_neg hbody, hprep, write_s3_data_to_storage]
    rw [if_neg (by simp)]
    simp only [put_metadata, hex2, Bool.false_eq_true, if_false]
  rw [hrun]
  refine ⟨rfl, rfl, rfl, rfl, hpdel, ?_, ?_⟩
  · show ((write_data (delete_metadata (delete_and_log sys u b k ranges)
      u b k) u b body).2.haystack ++ [HRow.mk u b k (serialize_offset_size
      [(write_data (delete_metadata (delete_and_log sys u b k ranges)
        u b k) u b body).1])]).find? (rowMatches u b k) = _
    have hnone2 : ((write_data (delete_metadata (delete_and_log sys u b k
        ranges) u b k) u b body).2.haystack).find? (rowMatches u b k)
        = none := hnone
    rw [find?_append_none hnone2]
    rw [List.find?_cons_of_pos _ (by simp [rowMatches])]
    rfl
  · exact read_after_write
      (delete_metadata (delete_and_log sys u b k ranges) u b k) u b body

/-- Witness for the amended C2. -/
theorem C2_s3_overwrite_no_queue_task_witness :
    (s3_put_object sysC2 ['s'] ['m'] ['k'] [9]).1.status = 200 ∧
    (s3_put_object sysC2 ['s'] ['m'] ['k'] [9]).2.queue = sysC2.queue ∧
    (s3_put_object sysC2 ['s'] ['m'] ['k'] [9]).2.delLog =
      sysC2.delLog ++ [⟨['s'], ['m'], ['k'], [(0, 2)]⟩] ∧
    (delete_and_log sysC2 ['s'] ['m'] ['k'] [(0, 2)]).logs = sysC2.logs ∧
    object_exists (delete_metadata
      (delete_and_log sysC2 ['s'] ['m'] ['k'] [(0, 2)]) ['s'] ['m'] ['k'])
      ['s'] ['m'] ['k'] = false ∧
    findRow (s3_put_object sysC2 ['s'] ['m'] ['k'] [9]).2 ['s'] ['m'] ['k'] =
      some ⟨['s'], ['m'], ['k'],
        serialize_offset_size [(logLen sysC2 ['s'] ['m'], 1)]⟩ ∧
    read_data (s3_put_object sysC2 ['s'] ['m'] ['k'] [9]).2 ['s'] ['m']
      (logLen sysC2 ['s'] ['m']) 1 = some [9] :=
  C2_s3_overwrite_no_queue_task sysC2 ['s'] ['m'] ['k'] [9] (by decide)
    ⟨['s'], ['m'], ['k'], serialize_offset_size [(0, 2)]⟩ (by rfl) [(0, 2)]
    (deserialize_serialize [(0, 2)] (by decide) (by decide))

/-! ## Claim C6 -/

/-- Counterexample to claim C6 as stated: an S3 PUT with a zero-byte body
is rejected with 400 BadRequest ("Empty payload"), it does not succeed
with 200. -/
theorem C6_s3_put_empty_counterexample :
    (s3_put_object ⟨[], [], [], 0, []⟩ ['s'] ['m'] ['k'] []).1.status
      = 400 ∧
    (s3_put_object ⟨[], [], [], 0, []⟩ ['s'] ['m'] ['k'] []).1.status
      ≠ 200 := by
  decide

/-- Claim C6 as amended: an S3 PUT whose body is empty fails with 400
BadRequest and stores nothing — the state is unchanged, so there is no
object for a subsequent GET to return. -/
theorem C6_s3_put_empty (sys : Sys) (u b k : Str) :
    (s3_put_object sys u b k []).1.status = 400 ∧
    (s3_put_object sys u b k []).2 = sys := by
  simp [s3_put_object]

/-! ## Claim C10 -/

/-- Rust `str::splitn(2, '/')`, returning the two pieces around the first
separator, or `none` when the separator is absent (the handler then
answers 400 "Invalid copy source format"). -/
def splitFirst (sep : Char) : Str → Option (Str × Str)
  | [] => none
  | c :: rest =>
    if c = sep then some ([], rest)
    else
      match splitFirst sep rest with
      | none => none
      | some p => some (c :: p.1, p.2)

theorem splitFirst_append (sb rest : Str) (h : '/' ∉ sb) :
    splitFirst '/' (sb ++ '/' :: rest) = some (sb, rest) := by
  induction sb with
  | nil => simp [splitFirst]
  | cons c cs ih =>
    have hc : ¬(c = '/') := by
      intro hc
      exact h (by simp [hc])
    have ih' := ih (fun hm => h (by simp [hm]))
    simp only [List.cons_append, splitFirst, if_neg hc, List.append_eq, ih']

/-- `s3_copy_object_handler` (after authentication): parse the
`x-amz-copy-source` header as `src_bucket/src_key`, but look the source
up — and read its bytes — in the bucket of the request path
(`context.bucket`); the parsed source bucket is never used.  When the
destination exists it is storage-logged and deleted first, then the
source bytes are re-written as a fresh range and the destination manifest
stored. -/
def s3_copy_object (sys : Sys) (u b k : Str) (copySrc : Option Str) :
    Resp × Sys :=
  match copySrc with
  | none => (⟨400, []⟩, sys)
  | some src =>
    match splitFirst '/' src with
    | none => (⟨400, []⟩, sys)
    | some (_srcBucket, srcKey) =>
      if ¬object_exists sys u b srcKey then (⟨404, []⟩, sys)
      else
        match s3_overwrite_prep sys u b k with
        | Except.error e => (⟨e, []⟩, sys)
        | Except.ok sys1 =>
          match db_read_metadata sys1 u b srcKey with
          | Except.error e => (⟨e, []⟩, sys1)
          | Except.ok blob =>
            match deserialize_offset_size blob with
            | none => (⟨400, []⟩, sys1)
            | some l =>
              match get_s3_data_from_storage sys1 u b l with
              | Except.error e => (⟨e, []⟩, sys1)
              | Except.ok data =>
                let w := write_s3_data_to_storage sys1 u b data
                match put_metadata w.2 u b k
                  (serialize_offset_size w.1) with
                | Except.error e => (⟨e, []⟩, w.2)
                | Except.ok sys2 => (⟨200, []⟩, sys2)

/-- Claim C10: the S3 server-side copy resolves the source in the bucket
of the request path (the destination bucket); the bucket named in the
`x-amz-copy-source` header is parsed but never used.  Hence (i) the
outcome is identical for any two named source buckets, (ii) when the
source key is absent from the destination bucket the copy answers 404
even if the named source bucket holds that key, and (iii) on success the
object copied is the destination bucket's object under the source key. -/
theorem C10_copy_uses_dest_bucket (sys : Sys) (u b k : Str)
    (sb1 sb2 srcKey : Str) (h1 : '/' ∉ sb1) (h2 : '/' ∉ sb2) :
    s3_copy_object sys u b k (some (sb1 ++ '/' :: srcKey)) =
      s3_copy_object sys u b k (some (sb2 ++ '/' :: srcKey)) ∧
    (object_exists sys u b srcKey = false →
      (s3_copy_object sys u b k (some (sb1 ++ '/' :: srcKey))).1.status
        = 404 ∧
      (s3_copy_object sys u b k (some (sb1 ++ '/' :: srcKey))).2 = sys) ∧
    (∀ r ranges data, findRow sys u b srcKey = some r →
      object_exists sys u b k = false →
      deserialize_offset_size r.blob = some ranges →
      ranges ≠ [] →
      readRanges sys u b ranges = some data →
      (s3_copy_object sys u b k (some (sb1 ++ '/' :: srcKey))).1.status
        = 200 ∧
      findRow (s3_copy_object sys u b k (some (sb1 ++ '/' :: srcKey))).2
        u b k = some ⟨u, b, k, serialize_offset_size
          [(logLen sys u b, data.length)]⟩ ∧
      read_data (s3_copy_object sys u b k (some (sb1 ++ '/' :: srcKey))).2
        u b (logLen sys u b) data.length = some data) := by
  refine ⟨?_, ?_, ?_⟩
  · simp only [s3_copy_object, splitFirst_append _ _ h1,
      splitFirst_append _ _ h2]
  · intro habs
    simp [s3_copy_object, splitFirst_append _ _ h1, habs]
  · intro r ranges data hrsrc hkabs hdes hrne hreads
    have hsrcx : object_exists sys u b srcKey = true := by
      rw [show object_exists sys u b srcKey
        = (sys.haystack.find? (rowMatches u b srcKey)).isSome from rfl,
        show sys.haystack.find? (rowMatches u b srcKey) = some r from hrsrc]
      rfl
    have hfindk : sys.haystack.find? (rowMatches u b k) = none := by
      cases hfind : sys.haystack.find? (rowMatches u b k) with
      | none => rfl
      | some x =>
        rw [show object_exists sys u b k
          = (sys.haystack.find? (rowMatches u b k)).isSome from rfl,
          hfind] at hkabs
        simp at hkabs
    have hprep : s3_overwrite_prep sys u b k = Except.ok sys := by
      simp [s3_overwrite_prep, findRow, hfindk]
    have hdb : db_read_metadata sys u b srcKey = Except.ok r.blob := by
      simp [db_read_metadata, hrsrc]
    have hget : get_s3_data_from_storage sys u b ranges
        = Except.ok data := by
      simp [get_s3_data_from_storage, hrne, hreads]
    have hex2 : object_exists (write_data sys u b data).2 u b k
        = false := hkabs
    have hrun : s3_copy_object sys u b k (some (sb1 ++ '/' :: srcKey))
        = (⟨200, []⟩, { (write_data sys u b data).2 with
          haystack := (write_data sys u b data).2.haystack ++
            [⟨u, b, k, serialize_offset_size
              [(write_data sys u b data).1]⟩] }) := by
      simp only [s3_copy_object, splitFirst_append _ _ h1, hsrcx,
        eq_self_iff_true, not_true, if_false, hprep, hdb, hdes,
        hget, write_s3_data_to_storage]
      simp only [put_metadata, hex2, Bool.false_eq_true, if_false]
    rw [hrun]
    refine ⟨rfl, ?_, ?_⟩
    · show ((write_data sys u b data).2.haystack ++ [HRow.mk u b k
        (serialize_offset_size [(write_data sys u b data).1])]).find?
        (rowMatches u b k) = _
      have hnone2 : ((write_data sys u b data).2.haystack).find?
          (rowMatches u b k) = none := hfindk
      rw [find?_append_none hnone2]
      rw [List.find?_cons_of_pos _ (by simp [rowMatches])]
      rfl
    · exact read_after_write sys u b data

def sysC10 : Sys :=
  ⟨[((['s'], ['m']), [7, 8]), ((['s'], ['q']), [3])],
   [⟨['s'], ['m'], ['x'], serialize_offset_size [(0, 2)]⟩,
    ⟨['s'], ['q'], ['y'], serialize_offset_size [(0, 1)]⟩], [], 0, []⟩

/-- Witness for C10: copying `q/y` into bucket `m` answers 404 because
`y` only exists in bucket `q`, not in the destination bucket `m`; and
copying `z/x` into bucket `m` succeeds with the bytes of `m`'s own `x`. -/
theorem C10_copy_uses_dest_bucket_witness :
    ((s3_copy_object sysC10 ['s'] ['m'] ['k']
        (some (['q'] ++ '/' :: ['y']))).1.status = 404 ∧
      (s3_copy_object sysC10 ['s'] ['m'] ['k']
        (some (['q'] ++ '/' :: ['y']))).2 = sysC10) ∧
    ((s3_copy_object sysC10 ['s'] ['m'] ['k']
        (some (['z'] ++ '/' :: ['x']))).1.status = 200 ∧
      findRow (s3_copy_object sysC10 ['s'] ['m'] ['k']
        (some (['z'] ++ '/' :: ['x']))).2 ['s'] ['m'] ['k'] =
        some ⟨['s'], ['m'], ['k'], serialize_offset_size
          [(logLen sysC10 ['s'] ['m'], 2)]⟩ ∧
      read_data (s3_copy_object sysC10 ['s'] ['m'] ['k']
        (some (['z'] ++ '/' :: ['x']))).2 ['s'] ['m']
        (logLen sysC10 ['s'] ['m']) 2 = some [7, 8]) :=
  ⟨(C10_copy_uses_dest_bucket sysC10 ['s'] ['m'] ['k'] ['q'] ['q'] ['y']
      (by decide) (by decide)).2.1 (by decide),
   (C10_copy_uses_dest_bucket sysC10 ['s'] ['m'] ['k'] ['z'] ['z'] ['x']
      (by decide) (by decide)).2.2
      ⟨['s'], ['m'], ['x'], serialize_offset_size [(0, 2)]⟩ [(0, 2)] [7, 8]
      (by rfl) (by decide)
      (deserialize_serialize [(0, 2)] (by decide) (by decide)) (by decide)
      (by rfl)⟩

/-! ## Claim C4: the multipart upload lifecycle (`s3/handlers.rs`) -/

def partSep : Str := ['.', 'p', 'a', 'r', 't', '.']

/-- The synthetic part key `"{key}.part.{partNumber}.{uploadId}"`. -/
def mkPartKey (k numStr uid : Str) : Str :=
  k ++ partSep ++ numStr ++ '.' :: uid

/-- Rust `str::starts_with`. -/
def isPfx : Str → Str → Bool
  | [], _ => true
  | _ :: _, [] => false
  | a :: as, b :: bs => decide (a = b) && isPfx as bs

/-- Rust `str::ends_with`. -/
def isSfx (p s : Str) : Bool := isPfx p.reverse s.reverse

/-- Rust `str::strip_prefix` (;`None` when the prefix does not match). -/
def dropPfx : Str → Str → Option Str
  | [], s => some s
  | _ :: _, [] => none
  | a :: as, b :: bs => if a = b then dropPfx as bs else none

/-- Rust `str::strip_suffix`. -/
def dropSfx (p s : Str) : Option Str :=
  match dropPfx p.reverse s.reverse with
  | none => none
  | some r => some r.reverse

def isDigitCh (c : Char) : Bool := decide ('0' ≤ c ∧ c ≤ '9')

def digitsVal (s : Str) : Nat :=
  s.foldl (fun a c => a * 10 + (c.toNat - 48)) 0

/-- Digit-string part of `str::parse::<i32>` with the i32 range check. -/
def parseI32Digits (ds : Str) (sign : Int) : Option Int :=
  if ds = [] then none
  else if ds.all isDigitCh then
    if sign = 1 then
      if digitsVal ds ≤ 2147483647 then some (Int.ofNat (digitsVal ds))
      else none
    else
      if digitsVal ds ≤ 2147483648 then some (-(Int.ofNat (digitsVal ds)))
      else none
  else none

/-- Rust `str::parse::<i32>`: optional sign, one or more digits, range
check. -/
def parseI32 (s : Str) : Option Int :=
  match s with
  | [] => none
  | c :: rest =>
    if c = '+' then parseI32Digits rest 1
    else if c = '-' then parseI32Digits rest (-1)
    else parseI32Digits s 1

/-- The synthetic-part-key pattern test of the complete/abort handlers:
`starts_with("{key}.part.") && ends_with(".{uploadId}")`. -/
def patOK (k uid objKey : Str) : Bool :=
  isPfx (k ++ partSep) objKey && isSfx ('.' :: uid) objKey

/-- Pattern test plus part-number extraction, as in the complete handler:
strip the prefix and the suffix, then `parse::<i32>`. -/
def parsePartNum (k uid objKey : Str) : Option Int :=
  if patOK k uid objKey then
    match dropPfx (k ++ partSep) objKey with
    | none => none
    | some s1 =>
      match dropSfx ('.' :: uid) s1 with
      | none => none
      | some s2 => parseI32 s2
  else none

/-- `s3_upload_part_handler` (after authentication): reject an empty
body, opaque-mode write, store the single-range manifest under the
synthetic part key.  (The response carries an `ETag` equal to the hex MD5
of the body, computed by an external crate; the claims do not inspect
it.) -/
def s3_upload_part (sys : Sys) (u b k numStr uid : Str) (body : Bytes) :
    Resp × Sys :=
  if body = [] then (⟨400, []⟩, sys)
  else
    let w := write_s3_data_to_storage sys u b body
    match put_metadata w.2 u b (mkPartKey k numStr uid)
      (serialize_offset_size w.1) with
    | Except.error e => (⟨e, []⟩, w.2)
    | Except.ok sys1 => (⟨200, []⟩, sys1)

/-- One part of the claim's scenario: the part-number string sent in the
`partNumber` query parameter, its numeric value, and the part bytes. -/
structure PartIn where
  numStr : Str
  num : Int
  data : Bytes
deriving DecidableEq, Repr

/-- Upload a list of parts, in the given (arbitrary) order. -/
def uploadParts (sys : Sys) (u b k uid : Str) : List PartIn → Sys
  | [] => sys
  | p :: rest =>
    uploadParts (s3_upload_part sys u b k p.numStr uid p.data).2 u b k uid
      rest

/-- Stable insert for the by-part-number sort. -/
def insertPart (p : Int × Str) : List (Int × Str) → List (Int × Str)
  | [] => [p]
  | q :: rest =>
    if p.1 ≤ q.1 then p :: q :: rest else q :: insertPart p rest

/-- Stable sort by part number, modelling `Vec::sort_by_key` (a stable
sort; all stable sorts agree pointwise, and under the claim's distinct
part numbers every correct sort agrees). -/
def sortParts : List (Int × Str) → List (Int × Str)
  | [] => []
  | p :: rest => insertPart p (sortParts rest)

/-- The combine loop of the complete handler: read each part's manifest
and bytes, concatenating in sorted order. -/
def readParts (sys : Sys) (u b : Str) :
    List (Int × Str) → Except Status Bytes
  | [] => Except.ok []
  | q :: rest =>
    match db_read_metadata sys u b q.2 with
    | Except.error e => Except.error e
    | Except.ok blob =>
      match deserialize_offset_size blob with
      | none => Except.error 400
      | some l =>
        match get_s3_data_from_storage sys u b l with
        | Except.error e => Except.error e
        | Except.ok d =>
          match readParts sys u b rest with
          | Except.error e => Except.error e
          | Except.ok ds => Except.ok (d ++ ds)

/-- The cleanup loop of the complete handler: per part, read the
manifest, storage-log the ranges (`delete_and_log`) and delete the
metadata record; an error aborts the loop keeping the partial state. -/
def cleanupParts (sys : Sys) (u b : Str) :
    List (Int × Str) → Except (Status × Sys) Sys
  | [] => Except.ok sys
  | q :: rest =>
    match db_read_metadata sys u b q.2 with
    | Except.error e => Except.error (e, sys)
    | Except.ok blob =>
      match deserialize_offset_size blob with
      | none => Except.error (400, sys)
      | some l =>
        cleanupParts (delete_metadata (delete_and_log sys u b q.2 l) u b
          q.2) u b rest

/-- `s3_complete_multipart_upload_handler` (after authentication; the
request's parts XML body is read but ignored by the source): enumerate
the bucket's keys, keep those matching the synthetic part pattern with a
parsable part number, sort ascending by part number, concatenate the
parts' bytes in that order, store the concatenation under the real key,
then clean up every part (storage-log + metadata delete). -/
def s3_complete_multipart (sys : Sys) (u b k uid : Str) : Resp × Sys :=
  let sorted := sortParts ((list_objects sys u b).filterMap (fun name =>
    match parsePartNum k uid name with
    | none => none
    | some n => some (n, name)))
  match readParts sys u b sorted with
  | Except.error e => (⟨e, []⟩, sys)
  | Except.ok combined =>
    let w := write_s3_data_to_storage sys u b combined
    match put_metadata w.2 u b k (serialize_offset_size w.1) with
    | Except.error e => (⟨e, []⟩, w.2)
    | Except.ok sys1 =>
      match cleanupParts sys1 u b sorted with
      | Except.error es => (⟨es.1, []⟩, es.2)
      | Except.ok sys2 => (⟨200, []⟩, sys2)

/-- Statement-side mirror of the stable by-part-number sort, on `PartIn`. -/
def insertPartIn (p : PartIn) : List PartIn → List PartIn
  | [] => [p]
  | q :: rest =>
    if p.num ≤ q.num then p :: q :: rest else q :: insertPartIn p rest

def sortPartsIn : List PartIn → List PartIn
  | [] => []
  | p :: rest => insertPartIn p (sortPartsIn rest)

/-! ### String-pattern lemmas for the synthetic part keys -/

theorem isPfx_append (p r : Str) : isPfx p (p ++ r) = true := by
  induction p with
  | nil => rfl
  | cons a as ih => simp [isPfx, ih]

theorem isPfx_length {p s : Str} (h : isPfx p s = true) :
    p.length ≤ s.length := by
  induction p generalizing s with
  | nil => simp
  | cons a as ih =>
    cases s with
    | nil => simp [isPfx] at h
    | cons b bs =>
      simp only [isPfx, Bool.and_eq_true, decide_eq_true_eq] at h
      have := ih h.2
      simp [List.length_cons]
      omega

theorem isSfx_append (q r : Str) : isSfx q (r ++ q) = true := by
  rw [isSfx, List.reverse_append]
  exact isPfx_append _ _

theorem dropPfx_append (p r : Str) : dropPfx p (p ++ r) = some r := by
  induction p with
  | nil => rfl
  | cons a as ih => simp [dropPfx, ih]

theorem dropSfx_append (q r : Str) : dropSfx q (r ++ q) = some r := by
  rw [dropSfx, List.reverse_append, dropPfx_append]
  simp

theorem mkPartKey_pfx_form (k ns uid : Str) :
    mkPartKey k ns uid = (k ++ partSep) ++ (ns ++ '.' :: uid) := by
  simp [mkPartKey, List.append_assoc]

theorem mkPartKey_sfx_form (k ns uid : Str) :
    mkPartKey k ns uid = (k ++ partSep ++ ns) ++ ('.' :: uid) := by
  simp [mkPartKey, List.append_assoc]

theorem patOK_mkPartKey (k ns uid : Str) :
    patOK k uid (mkPartKey k ns uid) = true := by
  rw [patOK, Bool.and_eq_true]
  constructor
  · rw [mkPartKey_pfx_form]
    exact isPfx_append _ _
  · rw [mkPartKey_sfx_form]
    exact isSfx_append _ _

theorem parsePartNum_mkPartKey (k ns uid : Str) :
    parsePartNum k uid (mkPartKey k ns uid) = parseI32 ns := by
  have h1 : dropPfx (k ++ partSep) (mkPartKey k ns uid)
      = some (ns ++ '.' :: uid) := by
    rw [mkPartKey_pfx_form]
    exact dropPfx_append _ _
  have h2 : dropSfx ('.' :: uid) (ns ++ '.' :: uid) = some ns :=
    dropSfx_append _ _
  simp only [parsePartNum, patOK_mkPartKey, eq_self_iff_true, if_true, h1,
    h2]

theorem patOK_self_false (k uid : Str) : patOK k uid k = false := by
  cases hp : patOK k uid k with
  | false => rfl
  | true =>
    rw [patOK, Bool.and_eq_true] at hp
    have := isPfx_length hp.1
    rw [List.length_append] at this
    simp [partSep] at this

theorem mkPartKey_inj {k a b uid : Str}
    (h : mkPartKey k a uid = mkPartKey k b uid) : a = b := by
  rw [mkPartKey_sfx_form, mkPartKey_sfx_form] at h
  have h1 := List.append_cancel_right h
  have h2 := List.append_cancel_left h1
  exact h2

theorem mkPartKey_ne_key (k ns uid : Str) : mkPartKey k ns uid ≠ k := by
  intro h
  have hlen : (mkPartKey k ns uid).length = k.length := by rw [h]
  rw [mkPartKey] at hlen
  simp [partSep] at hlen

theorem parsePartNum_none_of_patOK_false {k uid s : Str}
    (h : patOK k uid s = false) : parsePartNum k uid s = none := by
  rw [parsePartNum, if_neg (by simp [h])]

/-! ### Sorting lemmas -/

theorem insertPart_map (l : List PartIn) (p : PartIn)
    (f : PartIn → Int × Str) (hf : ∀ q, (f q).1 = q.num) :
    insertPart (f p) (l.map f) = (insertPartIn p l).map f := by
  induction l with
  | nil => rfl
  | cons q rest ih =>
    simp only [List.map_cons, insertPart, insertPartIn, hf]
    by_cases hle : p.num ≤ q.num
    · rw [if_pos hle, if_pos hle]
      simp
    · rw [if_neg hle, if_neg hle]
      simp [ih]

theorem sortParts_map (l : List PartIn) (f : PartIn → Int × Str)
    (hf : ∀ q, (f q).1 = q.num) :
    sortParts (l.map f) = (sortPartsIn l).map f := by
  induction l with
  | nil => rfl
  | cons p rest ih =>
    simp only [List.map_cons, sortParts, sortPartsIn, ih]
    exact insertPart_map _ _ _ hf

theorem insertPartIn_perm (p : PartIn) (l : List PartIn) :
    List.Perm (insertPartIn p l) (p :: l) := by
  induction l with
  | nil => exact List.Perm.refl _
  | cons q rest ih =>
    rw [insertPartIn]
    by_cases hle : p.num ≤ q.num
    · rw [if_pos hle]
    · rw [if_neg hle]
      exact (List.Perm.cons q ih).trans (List.Perm.swap p q rest)

theorem sortPartsIn_perm (l : List PartIn) :
    List.Perm (sortPartsIn l) l := by
  induction l with
  | nil => exact List.Perm.refl _
  | cons p rest ih =>
    rw [sortPartsIn]
    exact (insertPartIn_perm p (sortPartsIn rest)).trans
      (List.Perm.cons p ih)

theorem insertPartIn_sorted (p : PartIn) (l : List PartIn)
    (h : List.Pairwise (fun a b : PartIn => a.num ≤ b.num) l) :
    List.Pairwise (fun a b : PartIn => a.num ≤ b.num) (insertPartIn p l) := by
  induction l with
  | nil => simp [insertPartIn]
  | cons q rest ih =>
    rw [List.pairwise_cons] at h
    rw [insertPartIn]
    by_cases hle : p.num ≤ q.num
    · rw [if_pos hle]
      rw [List.pairwise_cons]
      constructor
      · intro x hx
        rcases List.mem_cons.mp hx with hx | hx
        · rw [hx]; exact hle
        · exact le_trans hle (h.1 x hx)
      · rw [List.pairwise_cons]
        exact h
    · rw [if_neg hle]
      rw [List.pairwise_cons]
      constructor
      · intro x hx
        have := (insertPartIn_perm p rest).mem_iff.mp hx
        rcases List.mem_cons.mp this with hx' | hx'
        · rw [hx']
          omega
        · exact h.1 x hx'
      · exact ih h.2

theorem sortPartsIn_sorted (l : List PartIn) :
    List.Pairwise (fun a b : PartIn => a.num ≤ b.num) (sortPartsIn l) := by
  induction l with
  | nil => simp [sortPartsIn]
  | cons p rest ih =>
    rw [sortPartsIn]
    exact insertPartIn_sorted p _ ih

/-! ### Association-list lemmas for the chunk logs -/

theorem assocSet_set_same (l : List ((Str × Str) × Bytes)) (q : Str × Str)
    (v w : Bytes) : assocSet (assocSet l q v) q w = assocSet l q w := by
  induction l with
  | nil => simp [assocSet]
  | cons p rest ih =>
    obtain ⟨pk, pv⟩ := p
    by_cases h : pk = q
    · simp [assocSet, h]
    · simp [assocSet, h, ih]

theorem assocSet_get_self (l : List ((Str × Str) × Bytes)) (q : Str × Str)
    (cur : Bytes) (h : assocGet l q = some cur) : assocSet l q cur = l := by
  induction l with
  | nil => simp [assocGet] at h
  | cons p rest ih =>
    obtain ⟨pk, pv⟩ := p
    by_cases hk : pk = q
    · rw [assocGet, if_pos hk] at h
      simp only [Option.some.injEq] at h
      rw [assocSet, if_pos hk, h]
    · rw [assocGet, if_neg hk] at h
      rw [assocSet, if_neg hk, ih h]

/-! ### The state produced by the part uploads -/

/-- The metadata rows created by uploading the parts in order, when the
log stands at `start` before the first upload. -/
def simRows (u b k uid : Str) : Nat → List PartIn → List HRow
  | _, [] => []
  | start, p :: rest =>
    ⟨u, b, mkPartKey k p.numStr uid,
      serialize_offset_size [(start, p.data.length)]⟩ ::
      simRows u b k uid (start + p.data.length) rest

/-- A stored object at key `pk` whose single-range manifest deserializes
and whose positional read returns `d`. -/
def ReadsTo (sys : Sys) (u b pk : Str) (d : Bytes) : Prop :=
  ∃ off, off < 256 ^ 8 ∧ d.length < 256 ^ 8 ∧
    sys.haystack.find? (rowMatches u b pk) =
      some ⟨u, b, pk, serialize_offset_size [(off, d.length)]⟩ ∧
    read_data sys u b off d.length = some d

theorem uploadParts_spec (u b k uid : Str) (parts : List PartIn) :
    ∀ (sys : Sys) (cur : Bytes),
    assocGet sys.logs (u, b) = some cur →
    (∀ p ∈ parts, p.data ≠ []) →
    (∀ p ∈ parts, sys.haystack.find?
      (rowMatches u b (mkPartKey k p.numStr uid)) = none) →
    (parts.map (fun p => p.numStr)).Nodup →
    uploadParts sys u b k uid parts =
      { logs := assocSet sys.logs (u, b)
          (cur ++ (parts.map (fun p => p.data)).flatten),
        haystack := sys.haystack ++ simRows u b k uid cur.length parts,
        queue := sys.queue, nextQid := sys.nextQid, delLog := sys.delLog } := by
  induction parts with
  | nil =>
    intro sys cur hlog _ _ _
    simp only [uploadParts, List.map_nil, List.flatten_nil,
      List.append_nil, simRows]
    rw [assocSet_get_self _ _ _ hlog]
  | cons p rest ih =>
    intro sys cur hlog hne hfresh hnd
    have hpne : p.data ≠ [] := hne p (by simp)
    have hgetd : ((assocGet sys.logs (u, b)).getD []) = cur := by
      rw [hlog]; rfl
    have hnofind : sys.haystack.find?
        (rowMatches u b (mkPartKey k p.numStr uid)) = none :=
      hfresh p (by simp)
    have hexf : object_exists (write_data sys u b p.data).2 u b
        (mkPartKey k p.numStr uid) = false := by
      rw [show object_exists (write_data sys u b p.data).2 u b
        (mkPartKey k p.numStr uid) = (sys.haystack.find?
          (rowMatches u b (mkPartKey k p.numStr uid))).isSome from rfl,
        hnofind]
      rfl
    have hstep : (s3_upload_part sys u b k p.numStr uid p.data).2 =
        { logs := assocSet sys.logs (u, b) (cur ++ p.data),
          haystack := sys.haystack ++ [⟨u, b, mkPartKey k p.numStr uid,
            serialize_offset_size [(cur.length, p.data.length)]⟩],
          queue := sys.queue, nextQid := sys.nextQid,
          delLog := sys.delLog } := by
      simp only [s3_upload_part, if_neg hpne, write_s3_data_to_storage,
        put_metadata, hexf, Bool.false_eq_true, if_false]
      simp only [write_data, hgetd]
    have hne' : ∀ q ∈ rest, q.data ≠ [] := fun q hq => hne q (by simp [hq])
    have hlog2 : assocGet ((s3_upload_part sys u b k p.numStr uid
        p.data).2).logs (u, b) = some (cur ++ p.data) := by
      rw [hstep]
      exact assocGet_set_same _ _ _
    have hfresh2 : ∀ q ∈ rest, ((s3_upload_part sys u b k p.numStr uid
        p.data).2).haystack.find?
        (rowMatches u b (mkPartKey k q.numStr uid)) = none := by
      intro q hq
      rw [hstep]
      show (sys.haystack ++ [HRow.mk u b (mkPartKey k p.numStr uid)
        (serialize_offset_size [(cur.length, p.data.length)])]).find?
        (rowMatches u b (mkPartKey k q.numStr uid)) = none
      rw [find?_append_none (hfresh q (by simp [hq]))]
      have hqs : q.numStr ≠ p.numStr := by
        intro he
        rw [List.map_cons, List.nodup_cons] at hnd
        exact hnd.1 (he ▸ List.mem_map_of_mem (fun x => x.numStr) hq)
      rw [List.find?_cons_of_neg _ ?_, List.find?_nil]
      simp only [rowMatches, decide_eq_true_eq, not_and]
      intro _ _ hk
      exact hqs (mkPartKey_inj hk.symm)
    have hnd' : (rest.map (fun p => p.numStr)).Nodup := by
      rw [List.map_cons, List.nodup_cons] at hnd
      exact hnd.2
    rw [uploadParts, ih _ (cur ++ p.data) hlog2 hne' hfresh2 hnd', hstep]
    simp [assocSet_set_same, List.append_assoc, List.map_cons,
      List.flatten_cons, List.length_append, simRows]

/-! ### Read-back of uploaded parts -/

theorem readsTo_parts (u b k uid : Str) (parts : List PartIn) :
    ∀ (S : Sys) (pre : List HRow) (cur : Bytes),
    S.haystack = pre ++ simRows u b k uid cur.length parts →
    assocGet S.logs (u, b) =
      some (cur ++ (parts.map (fun p => p.data)).flatten) →
    (∀ p ∈ parts, pre.find?
      (rowMatches u b (mkPartKey k p.numStr uid)) = none) →
    (parts.map (fun p => p.numStr)).Nodup →
    cur.length + ((parts.map (fun p => p.data)).flatten).length
      < 256 ^ 8 →
    ∀ p ∈ parts, ReadsTo S u b (mkPartKey k p.numStr uid) p.data := by
  induction parts with
  | nil => intro S pre cur _ _ _ _ _ p hp; simp at hp
  | cons p rest ih =>
    intro S pre cur hhay hlog hpre hnd hbound q hq
    rcases List.mem_cons.mp hq with hq | hq
    · subst hq
      have hbound2 := hbound
      simp only [List.map_cons, List.flatten_cons, List.length_append]
        at hbound2
      refine ⟨cur.length, by omega, by omega, ?_, ?_⟩
      · rw [hhay, find?_append_none (hpre q (by simp)), simRows]
        rw [List.find?_cons_of_pos _ (by simp [rowMatches])]
      · simp only [read_data, hlog, List.map_cons, List.flatten_cons]
        rw [if_pos (by simp [List.length_append])]
        congr 1
        rw [List.drop_left, List.take_left]
    · have hhay' : S.haystack = (pre ++ [⟨u, b, mkPartKey k p.numStr uid,
          serialize_offset_size [(cur.length, p.data.length)]⟩]) ++
          simRows u b k uid (cur ++ p.data).length rest := by
        rw [hhay, simRows]
        simp [List.length_append]
      have hlog' : assocGet S.logs (u, b) = some ((cur ++ p.data) ++
          ((rest.map (fun p => p.data)).flatten)) := by
        rw [hlog]
        simp [List.append_assoc]
      have hpre' : ∀ r ∈ rest, (pre ++ [HRow.mk u b
          (mkPartKey k p.numStr uid)
          (serialize_offset_size [(cur.length, p.data.length)])]).find?
          (rowMatches u b (mkPartKey k r.numStr uid)) = none := by
        intro r hr
        rw [find?_append_none (hpre r (by simp [hr]))]
        have hqs : r.numStr ≠ p.numStr := by
          intro he
          rw [List.map_cons, List.nodup_cons] at hnd
          exact hnd.1 (he ▸ List.mem_map_of_mem (fun x => x.numStr) hr)
        rw [List.find?_cons_of_neg _ ?_, List.find?_nil]
        simp only [rowMatches, decide_eq_true_eq, not_and]
        intro _ _ hk
        exact hqs (mkPartKey_inj hk.symm)
      have hnd' : (rest.map (fun p => p.numStr)).Nodup := by
        rw [List.map_cons, List.nodup_cons] at hnd
        exact hnd.2
      have hbound' : (cur ++ p.data).length +
          ((rest.map (fun p => p.data)).flatten).length < 256 ^ 8 := by
        simp only [List.map_cons, List.flatten_cons, List.length_append]
          at hbound ⊢
        omega
      exact ih S _ _ hhay' hlog' hpre' hnd' hbound' q hq

/-- The combine loop returns the in-order concatenation when every listed
part reads back. -/
theorem readParts_ok (u b k uid : Str) (ps : List PartIn) :
    ∀ (S : Sys),
    (∀ p ∈ ps, ReadsTo S u b (mkPartKey k p.numStr uid) p.data) →
    readParts S u b (ps.map (fun p => (p.num, mkPartKey k p.numStr uid)))
      = Except.ok ((ps.map (fun p => p.data)).flatten) := by
  induction ps with
  | nil => intro S _; rfl
  | cons p rest ih =>
    intro S hread
    obtain ⟨off, hoff, hlen, hfind, hrd⟩ := hread p (by simp)
    have hdb : db_read_metadata S u b (mkPartKey k p.numStr uid)
        = Except.ok (serialize_offset_size [(off, p.data.length)]) := by
      simp [db_read_metadata, findRow, hfind]
    have hdes : deserialize_offset_size
        (serialize_offset_size [(off, p.data.length)])
        = some [(off, p.data.length)] := by
      apply deserialize_serialize
      · intro q hq
        simp only [List.mem_singleton] at hq
        subst hq
        exact ⟨hoff, hlen⟩
      · simp
    have hget : get_s3_data_from_storage S u b [(off, p.data.length)]
        = Except.ok p.data := by
      simp [get_s3_data_from_storage, readRanges, hrd]
    simp only [List.map_cons, readParts, hdb, hdes, hget,
      ih S (fun q hq => hread q (by simp [hq])), List.flatten_cons]

/-! ### Cleanup-loop lemmas -/

/-- A filter that keeps every row matched by `p` does not change `find?
p`. -/
theorem find?_filter_keep (l : List HRow) (p keep : HRow → Bool)
    (h : ∀ x, p x = true → keep x = true) :
    (l.filter keep).find? p = l.find? p := by
  induction l with
  | nil => rfl
  | cons a rest ih =>
    cases hpa : p a with
    | true =>
      rw [List.filter_cons_of_pos (h a hpa)]
      rw [List.find?_cons_of_pos _ hpa, List.find?_cons_of_pos _ hpa]
    | false =>
      cases hka : keep a with
      | true =>
        rw [List.filter_cons_of_pos hka]
        rw [List.find?_cons_of_neg _ (by simp [hpa]),
          List.find?_cons_of_neg _ (by simp [hpa])]
        exact ih
      | false =>
        rw [List.filter_cons_of_neg (by simp [hka])]
        rw [List.find?_cons_of_neg _ (by simp [hpa])]
        exact ih

/-- The rows left after deleting, in order, the metadata records of a key
list. -/
def deleteKeys (u b : Str) (hay : List HRow) : List (Int × Str) → List HRow
  | [] => hay
  | q :: rest =>
    deleteKeys u b (hay.filter (fun r => !(rowMatches u b q.2 r))) rest

theorem mem_deleteKeys {u b : Str} {x : HRow} (qs : List (Int × Str)) :
    ∀ (hay : List HRow), x ∈ deleteKeys u b hay qs →
    x ∈ hay ∧ ∀ q ∈ qs, rowMatches u b q.2 x = false := by
  induction qs with
  | nil => intro hay hx; exact ⟨hx, by simp⟩
  | cons q rest ih =>
    intro hay hx
    rw [deleteKeys] at hx
    obtain ⟨hmem, hrest⟩ := ih _ hx
    rw [List.mem_filter] at hmem
    refine ⟨hmem.1, ?_⟩
    intro r hr
    rcases List.mem_cons.mp hr with hr | hr
    · rw [hr]
      have := hmem.2
      simp only [Bool.not_eq_true'] at this
      exact this
    · exact hrest r hr

theorem find?_deleteKeys (u b : Str) (p : HRow → Bool)
    (qs : List (Int × Str)) :
    ∀ (hay : List HRow),
    (∀ q ∈ qs, ∀ x, p x = true → rowMatches u b q.2 x = false) →
    (deleteKeys u b hay qs).find? p = hay.find? p := by
  induction qs with
  | nil => intro hay _; rfl
  | cons q rest ih =>
    intro hay h
    rw [deleteKeys]
    rw [ih _ (fun r hr x hx => h r (by simp [hr]) x hx)]
    exact find?_filter_keep hay p _ (fun x hx => by
      have := h q (by simp) x hx
      simp [this])

/-- The cleanup loop succeeds and deletes exactly the listed keys when
each listed key is present with a deserializable manifest and the keys
are distinct; the chunk logs and the deletion queue are untouched, and
the storage-layer deletion log grows. -/
theorem cleanupParts_spec (u b : Str) (qs : List (Int × Str)) :
    ∀ (S : Sys),
    (∀ q ∈ qs, ∃ row l, S.haystack.find? (rowMatches u b q.2) = some row ∧
      deserialize_offset_size row.blob = some l) →
    (qs.map (fun q => q.2)).Nodup →
    ∃ dl, cleanupParts S u b qs = Except.ok
      ⟨S.logs, deleteKeys u b S.haystack qs, S.queue, S.nextQid,
        S.delLog ++ dl⟩ := by
  induction qs with
  | nil =>
    intro S _ _
    exact ⟨[], by simp [cleanupParts, deleteKeys]⟩
  | cons q rest ih =>
    intro S hpres hnd
    obtain ⟨row, l, hfind, hdes⟩ := hpres q (by simp)
    have hdb : db_read_metadata S u b q.2 = Except.ok row.blob := by
      simp [db_read_metadata, findRow, hfind]
    have hpres' : ∀ r ∈ rest, ∃ row' l',
        ((delete_metadata (delete_and_log S u b q.2 l) u b
          q.2).haystack).find? (rowMatches u b r.2) = some row' ∧
        deserialize_offset_size row'.blob = some l' := by
      intro r hr
      obtain ⟨row', l', hfind', hdes'⟩ := hpres r (by simp [hr])
      refine ⟨row', l', ?_, hdes'⟩
      show ((S.haystack.filter (fun x => !(rowMatches u b q.2 x))).find?
        (rowMatches u b r.2)) = some row'
      rw [find?_filter_keep]
      · exact hfind'
      · intro x hx
        have hkne : r.2 ≠ q.2 := by
          rw [List.map_cons, List.nodup_cons] at hnd
          intro he
          exact hnd.1 (he ▸ List.mem_map_of_mem (fun z => z.2) hr)
        simp only [rowMatches, decide_eq_true_eq] at hx
        simp only [Bool.not_eq_true', rowMatches, decide_eq_false_iff_not,
          not_and]
        intro _ _ hk
        exact hkne (by rw [← hx.2.2, hk])
    have hnd' : (rest.map (fun q => q.2)).Nodup := by
      rw [List.map_cons, List.nodup_cons] at hnd
      exact hnd.2
    obtain ⟨dl, hrec⟩ := ih _ hpres' hnd'
    refine ⟨⟨u, b, q.2, l⟩ :: dl, ?_⟩
    rw [cleanupParts, hdb]
    simp only [hdes]
    rw [hrec]
    simp [deleteKeys, delete_metadata, delete_and_log, List.append_assoc]

/-! ### Enumeration of the bucket after the uploads -/

theorem simRows_filter_all (u b k uid : Str) (parts : List PartIn) :
    ∀ start, (simRows u b k uid start parts).filter
      (fun r => decide (r.user = u ∧ r.bucket = b)) =
      simRows u b k uid start parts := by
  induction parts with
  | nil => intro start; rfl
  | cons p rest ih =>
    intro start
    rw [simRows, List.filter_cons_of_pos (by simp), ih]

theorem simRows_keys (u b k uid : Str) (parts : List PartIn) :
    ∀ start, (simRows u b k uid start parts).map (fun r => r.key) =
      parts.map (fun p => mkPartKey k p.numStr uid) := by
  induction parts with
  | nil => intro start; rfl
  | cons p rest ih =>
    intro start
    rw [simRows, List.map_cons, ih, List.map_cons]

theorem filterMap_parts (k uid : Str) (parts : List PartIn)
    (hparse : ∀ p ∈ parts, parseI32 p.numStr = some p.num) :
    (parts.map (fun p => mkPartKey k p.numStr uid)).filterMap
      (fun name => match parsePartNum k uid name with
        | none => none
        | some n => some (n, name)) =
      parts.map (fun p => (p.num, mkPartKey k p.numStr uid)) := by
  induction parts with
  | nil => rfl
  | cons p rest ih =>
    rw [List.map_cons, List.filterMap_cons, parsePartNum_mkPartKey,
      hparse p (by simp), List.map_cons,
      ih (fun q hq => hparse q (by simp [hq]))]

theorem filterMap_none {α β : Type} (g : α → Option β) (l : List α)
    (h : ∀ a ∈ l, g a = none) : l.filterMap g = [] := by
  induction l with
  | nil => rfl
  | cons a rest ih =>
    rw [List.filterMap_cons, h a (by simp)]
    exact ih (fun x hx => h x (by simp [hx]))

theorem simRows_mem {u b k uid : Str} {x : HRow} (parts : List PartIn) :
    ∀ start, x ∈ simRows u b k uid start parts →
    ∃ p ∈ parts, x.user = u ∧ x.bucket = b ∧
      x.key = mkPartKey k p.numStr uid := by
  induction parts with
  | nil => intro start hx; simp [simRows] at hx
  | cons p rest ih =>
    intro start hx
    rw [simRows, List.mem_cons] at hx
    rcases hx with hx | hx
    · exact ⟨p, by simp, by simp [hx]⟩
    · obtain ⟨q, hq, hprops⟩ := ih _ hx
      exact ⟨q, by simp [hq], hprops⟩

/-- A GET at a key holding a fresh single-range manifest returns the
range's bytes. -/
theorem s3_get_spec (S : Sys) (u b k : Str) (off len : Nat) (d : Bytes)
    (hfind : S.haystack.find? (rowMatches u b k) =
      some (HRow.mk u b k (serialize_offset_size [(off, len)])))
    (hoff : off < 256 ^ 8) (hlen : len < 256 ^ 8)
    (hrd : read_data S u b off len = some d) :
    s3_get_object S u b k = (⟨200, d ++ []⟩, S) := by
  have hex : object_exists S u b k = true := by
    rw [show object_exists S u b k
      = (S.haystack.find? (rowMatches u b k)).isSome from rfl, hfind]
    rfl
  have hdb : db_read_metadata S u b k =
      Except.ok (serialize_offset_size [(off, len)]) := by
    simp [db_read_metadata, findRow, hfind]
  have hdes : deserialize_offset_size (serialize_offset_size [(off, len)])
      = some [(off, len)] := by
    apply deserialize_serialize
    · intro q hq
      simp only [List.mem_singleton] at hq
      subst hq
      exact ⟨hoff, hlen⟩
    · simp
  have hg3 : get_s3_data_from_storage S u b [(off, len)]
      = Except.ok (d ++ []) := by
    rw [get_s3_data_from_storage, if_neg (by simp)]
    simp only [readRanges, hrd]
  simp only [s3_get_object, hex, eq_self_iff_true, not_true, if_false,
    hdb, hdes, hg3]

set_option maxHeartbeats 2000000 in
/-- Claim C4: for a multipart upload whose parts (with distinct,
`i32`-parsable part numbers and non-empty bodies) were uploaded in any
order under the synthetic keys `"{key}.part.{partNumber}.{uploadId}"`
into a bucket previously containing no key matching the part pattern and
not the real key, completing the upload (i) succeeds, (ii) stores under
the real key an object whose bytes — as returned by a subsequent S3
GET — equal the concatenation of the parts sorted ascending by part
number (`sortPartsIn` is sorted and a permutation of the uploads), and
(iii) leaves no synthetic part key for that `uploadId` in the bucket
(no remaining row's key matches the part pattern `patOK`). -/
theorem C4_multipart_complete (sys : Sys) (u b k uid : Str)
    (parts : List PartIn) (cur : Bytes)
    (hlog : assocGet sys.logs (u, b) = some cur)
    (hne : ∀ p ∈ parts, p.data ≠ [])
    (hparse : ∀ p ∈ parts, parseI32 p.numStr = some p.num)
    (hnums : (parts.map (fun p => p.num)).Nodup)
    (hfresh : ∀ x ∈ sys.haystack, x.user = u → x.bucket = b →
      patOK k uid x.key = false)
    (hkabs : sys.haystack.find? (rowMatches u b k) = none)
    (hbound : cur.length + ((parts.map (fun p => p.data)).flatten).length
      < 256 ^ 8) :
    (s3_complete_multipart (uploadParts sys u b k uid parts) u b k
      uid).1.status = 200 ∧
    (s3_get_object (s3_complete_multipart (uploadParts sys u b k uid
      parts) u b k uid).2 u b k).1.status = 200 ∧
    (s3_get_object (s3_complete_multipart (uploadParts sys u b k uid
      parts) u b k uid).2 u b k).1.body =
      ((sortPartsIn parts).map (fun p => p.data)).flatten ∧
    List.Pairwise (fun a c : PartIn => a.num ≤ c.num) (sortPartsIn parts) ∧
    List.Perm (sortPartsIn parts) parts ∧
    (∀ x ∈ (s3_complete_multipart (uploadParts sys u b k uid parts) u b k
      uid).2.haystack, x.user = u → x.bucket = b →
      patOK k uid x.key = false) := by
  -- distinct part-number strings
  have hnds : (parts.map (fun p => p.numStr)).Nodup := by
    have h1 : List.Pairwise (fun a c : PartIn => a.num ≠ c.num) parts :=
      List.pairwise_map.mp hnums
    have h2 : List.Pairwise (fun a c : PartIn => a.numStr ≠ c.numStr)
        parts := by
      refine h1.imp_of_mem ?_
      intro a c ha hc hne' he
      apply hne'
      have hpa := hparse a ha
      have hpc := hparse c hc
      rw [he, hpc] at hpa
      exact (Option.some.inj hpa).symm
    exact List.pairwise_map.mpr h2
  -- no part key pre-exists
  have hfreshF : ∀ p ∈ parts, sys.haystack.find?
      (rowMatches u b (mkPartKey k p.numStr uid)) = none := by
    intro p hp
    rw [List.find?_eq_none]
    intro x hx hmx
    simp only [rowMatches, decide_eq_true_eq] at hmx
    have hpat := hfresh x hx hmx.1 hmx.2.1
    rw [hmx.2.2, patOK_mkPartKey] at hpat
    cases hpat
  -- the state after the uploads
  have hspec := uploadParts_spec u b k uid parts sys cur hlog hne hfreshF
    hnds
  have hhay : (uploadParts sys u b k uid parts).haystack =
      sys.haystack ++ simRows u b k uid cur.length parts := by
    rw [hspec]
  have hlog1 : assocGet (uploadParts sys u b k uid parts).logs (u, b) =
      some (cur ++ (parts.map (fun p => p.data)).flatten) := by
    rw [hspec]
    exact assocGet_set_same _ _ _
  -- every uploaded part reads back
  have hreads : ∀ p ∈ parts, ReadsTo (uploadParts sys u b k uid parts)
      u b (mkPartKey k p.numStr uid) p.data :=
    readsTo_parts u b k uid parts _ sys.haystack cur hhay hlog1 hfreshF
      hnds hbound
  -- enumerating the bucket
  have hlist : list_objects (uploadParts sys u b k uid parts) u b =
      list_objects sys u b ++
        parts.map (fun p => mkPartKey k p.numStr uid) := by
    simp only [list_objects]
    rw [hhay, List.filter_append, List.map_append, simRows_filter_all,
      simRows_keys]
  have hfm : (list_objects (uploadParts sys u b k uid parts)
      u b).filterMap (fun name =>
        match parsePartNum k uid name with
        | none => none
        | some n => some (n, name)) =
      parts.map (fun p => (p.num, mkPartKey k p.numStr uid)) := by
    rw [hlist, List.filterMap_append, filterMap_parts k uid parts hparse]
    rw [filterMap_none _ _ ?_, List.nil_append]
    intro name hname
    simp only [list_objects, List.mem_map] at hname
    obtain ⟨rowx, hrowx, hkey⟩ := hname
    rw [List.mem_filter] at hrowx
    have hub := hrowx.2
    simp only [decide_eq_true_eq] at hub
    have hpat := hfresh rowx hrowx.1 hub.1 hub.2
    rw [hkey] at hpat
    rw [parsePartNum_none_of_patOK_false hpat]
  have hsorted : sortParts ((list_objects (uploadParts sys u b k uid
      parts) u b).filterMap (fun name =>
        match parsePartNum k uid name with
        | none => none
        | some n => some (n, name))) =
      (sortPartsIn parts).map
        (fun p => (p.num, mkPartKey k p.numStr uid)) := by
    rw [hfm]
    exact sortParts_map parts _ (fun q => rfl)
  -- the combine loop
  have hsortmem : ∀ p ∈ sortPartsIn parts, p ∈ parts :=
    fun p hp => (sortPartsIn_perm parts).subset hp
  have hrp : readParts (uploadParts sys u b k uid parts) u b
      ((sortPartsIn parts).map
        (fun p => (p.num, mkPartKey k p.numStr uid))) =
      Except.ok (((sortPartsIn parts).map (fun p => p.data)).flatten) :=
    readParts_ok u b k uid (sortPartsIn parts) _
      (fun p hp => hreads p (hsortmem p hp))
  -- the real key is still absent after the uploads
  have hfk1 : (uploadParts sys u b k uid parts).haystack.find?
      (rowMatches u b k) = none := by
    rw [hhay, find?_append_none hkabs, List.find?_eq_none]
    intro x hx hmx
    obtain ⟨p, hp, _, _, hxkey⟩ := simRows_mem parts _ hx
    simp only [rowMatches, decide_eq_true_eq] at hmx
    apply mkPartKey_ne_key k p.numStr uid
    rw [← hxkey]
    exact hmx.2.2
  -- length bookkeeping
  have hClen : (((sortPartsIn parts).map (fun p => p.data)).flatten).length
      = ((parts.map (fun p => p.data)).flatten).length := by
    have hperm2 : List.Perm ((sortPartsIn parts).map (fun p => p.data))
        (parts.map (fun p => p.data)) := (sortPartsIn_perm parts).map _
    rw [List.length_flatten, List.length_flatten]
    exact (hperm2.map List.length).sum_eq
  have hoffC : logLen (uploadParts sys u b k uid parts) u b =
      cur.length + ((parts.map (fun p => p.data)).flatten).length := by
    simp [logLen, hlog1]
  -- storing the concatenation under the real key succeeds
  have hexk1 : object_exists (write_data (uploadParts sys u b k uid parts)
      u b (((sortPartsIn parts).map (fun p => p.data)).flatten)).2 u b k
      = false := by
    rw [show object_exists (write_data (uploadParts sys u b k uid parts)
      u b (((sortPartsIn parts).map (fun p => p.data)).flatten)).2 u b k
      = ((uploadParts sys u b k uid parts).haystack.find?
        (rowMatches u b k)).isSome from rfl, hfk1]
    rfl
  -- the freshly stored manifest round-trips
  have hdeskey : deserialize_offset_size (serialize_offset_size
      [(write_data (uploadParts sys u b k uid parts) u b
        (((sortPartsIn parts).map (fun p => p.data)).flatten)).1]) =
      some [(write_data (uploadParts sys u b k uid parts) u b
        (((sortPartsIn parts).map (fun p => p.data)).flatten)).1] := by
    apply deserialize_serialize
    · intro q hq
      simp only [List.mem_singleton] at hq
      subst hq
      constructor
      · rw [show (write_data (uploadParts sys u b k uid parts) u b
          (((sortPartsIn parts).map (fun p => p.data)).flatten)).1.1
          = logLen (uploadParts sys u b k uid parts) u b from rfl, hoffC]
        omega
      · rw [show (write_data (uploadParts sys u b k uid parts) u b
          (((sortPartsIn parts).map (fun p => p.data)).flatten)).1.2
          = (((sortPartsIn parts).map (fun p => p.data)).flatten).length
          from rfl, hClen]
        omega
    · simp
  -- every part is present (with the key row appended) for the cleanup
  have hpres2 : ∀ q ∈ (sortPartsIn parts).map
      (fun p => (p.num, mkPartKey k p.numStr uid)), ∃ row l,
      ((write_data (uploadParts sys u b k uid parts) u b
        (((sortPartsIn parts).map (fun p => p.data)).flatten)).2.haystack
        ++ [HRow.mk u b k (serialize_offset_size
          [(write_data (uploadParts sys u b k uid parts) u b
            (((sortPartsIn parts).map
              (fun p => p.data)).flatten)).1])]).find?
        (rowMatches u b q.2) = some row ∧
      deserialize_offset_size row.blob = some l := by
    intro q hq
    rw [List.mem_map] at hq
    obtain ⟨p, hp, hq'⟩ := hq
    subst hq'
    obtain ⟨off, hoff, hlenp, hfindp, _⟩ := hreads p (hsortmem p hp)
    refine ⟨_, [(off, p.data.length)], find?_append_some hfindp, ?_⟩
    apply deserialize_serialize
    · intro q2 hq2
      simp only [List.mem_singleton] at hq2
      subst hq2
      exact ⟨hoff, hlenp⟩
    · simp
  -- the listed part keys are distinct
  have hknd : (((sortPartsIn parts).map
      (fun p => (p.num, mkPartKey k p.numStr uid))).map
      (fun q => q.2)).Nodup := by
    rw [List.map_map]
    have hnds2 : ((sortPartsIn parts).map (fun p => p.numStr)).Nodup :=
      ((sortPartsIn_perm parts).map (fun p => p.numStr)).nodup_iff.mpr hnds
    have h3 : List.Pairwise (fun a c : PartIn => a.numStr ≠ c.numStr)
        (sortPartsIn parts) := List.pairwise_map.mp hnds2
    have h4 : List.Pairwise (fun a c : PartIn =>
        mkPartKey k a.numStr uid ≠ mkPartKey k c.numStr uid)
        (sortPartsIn parts) :=
      h3.imp (fun h he => h (mkPartKey_inj he))
    exact List.pairwise_map.mpr h4
  obtain ⟨dl, hrec⟩ := cleanupParts_spec u b
    ((sortPartsIn parts).map (fun p => (p.num, mkPartKey k p.numStr uid)))
    ⟨(write_data (uploadParts sys u b k uid parts) u b
        (((sortPartsIn parts).map (fun p => p.data)).flatten)).2.logs,
      (write_data (uploadParts sys u b k uid parts) u b
        (((sortPartsIn parts).map (fun p => p.data)).flatten)).2.haystack
        ++ [HRow.mk u b k (serialize_offset_size
          [(write_data (uploadParts sys u b k uid parts) u b
            (((sortPartsIn parts).map (fun p => p.data)).flatten)).1])],
      (write_data (uploadParts sys u b k uid parts) u b
        (((sortPartsIn parts).map (fun p => p.data)).flatten)).2.queue,
      (write_data (uploadParts sys u b k uid parts) u b
        (((sortPartsIn parts).map (fun p => p.data)).flatten)).2.nextQid,
      (write_data (uploadParts sys u b k uid parts) u b
        (((sortPartsIn parts).map (fun p => p.data)).flatten)).2.delLog⟩
    hpres2 hknd
  -- run the complete handler
  have hrun : s3_complete_multipart (uploadParts sys u b k uid parts)
      u b k uid = (⟨200, []⟩, (⟨(⟨(write_data (uploadParts sys u b k uid parts) u b (((sortPartsIn parts).map (fun p => p.data)).flatten)).2.logs, (write_data (uploadParts sys u b k uid parts) u b (((sortPartsIn parts).map (fun p => p.data)).flatten)).2.haystack ++ [HRow.mk u b k (serialize_offset_size [(write_data (uploadParts sys u b k uid parts) u b (((sortPartsIn parts).map (fun p => p.data)).flatten)).1])], (write_data (uploadParts sys u b k uid parts) u b (((sortPartsIn parts).map (fun p => p.data)).flatten)).2.queue, (write_data (uploadParts sys u b k uid parts) u b (((sortPartsIn parts).map (fun p => p.data)).flatten)).2.nextQid, (write_data (uploadParts sys u b k uid parts) u b (((sortPartsIn parts).map (fun p => p.data)).flatten)).2.delLog⟩ : Sys).logs, deleteKeys u b (⟨(write_data (uploadParts sys u b k uid parts) u b (((sortPartsIn parts).map (fun p => p.data)).flatten)).2.logs, (write_data (uploadParts sys u b k uid parts) u b (((sortPartsIn parts).map (fun p => p.data)).flatten)).2.haystack ++ [HRow.mk u b k (serialize_offset_size [(write_data (uploadParts sys u b k uid parts) u b (((sortPartsIn parts).map (fun p => p.data)).flatten)).1])], (write_data (uploadParts sys u b k uid parts) u b (((sortPartsIn parts).map (fun p => p.data)).flatten)).2.queue, (write_data (uploadParts sys u b k uid parts) u b (((sortPartsIn parts).map (fun p => p.data)).flatten)).2.nextQid, (write_data (uploadParts sys u b k uid parts) u b (((sortPartsIn parts).map (fun p => p.data)).flatten)).2.delLog⟩ : Sys).haystack ((sortPartsIn parts).map (fun p => (p.num, mkPartKey k p.numStr uid))), (⟨(write_data (uploadParts sys u b k uid parts) u b (((sortPartsIn parts).map (fun p => p.data)).flatten)).2.logs, (write_data (uploadParts sys u b k uid parts) u b (((sortPartsIn parts).map (fun p => p.data)).flatten)).2.haystack ++ [HRow.mk u b k (serialize_offset_size [(write_data (uploadParts sys u b k uid parts) u b (((sortPartsIn parts).map (fun p => p.data)).flatten)).1])], (write_data (uploadParts sys u b k uid parts) u b (((sortPartsIn parts).map (fun p => p.data)).flatten)).2.queue, (write_data (uploadParts sys u b k uid parts) u b (((sortPartsIn parts).map (fun p => p.data)).flatten)).2.nextQid, (write_data (uploadParts sys u b k uid parts) u b (((sortPartsIn parts).map (fun p => p.data)).flatten)).2.delLog⟩ : Sys).queue, (⟨(write_data (uploadParts sys u b k uid parts) u b (((sortPartsIn parts).map (fun p => p.data)).flatten)).2.logs, (write_data (uploadParts sys u b k uid parts) u b (((sortPartsIn parts).map (fun p => p.data)).flatten)).2.haystack ++ [HRow.mk u b k (serialize_offset_size [(write_data (uploadParts sys u b k uid parts) u b (((sortPartsIn parts).map (fun p => p.data)).flatten)).1])], (write_data (uploadParts sys u b k uid parts) u b (((sortPartsIn parts).map (fun p => p.data)).flatten)).2.queue, (write_data (uploadParts sys u b k uid parts) u b (((sortPartsIn parts).map (fun p => p.data)).flatten)).2.nextQid, (write_data (uploadParts sys u b k uid parts) u b (((sortPartsIn parts).map (fun p => p.data)).flatten)).2.delLog⟩ : Sys).nextQid, (⟨(write_data (uploadParts sys u b k uid parts) u b (((sortPartsIn parts).map (fun p => p.data)).flatten)).2.logs, (write_data (uploadParts sys u b k uid parts) u b (((sortPartsIn parts).map (fun p => p.data)).flatten)).2.haystack ++ [HRow.mk u b k (serialize_offset_size [(write_data (uploadParts sys u b k uid parts) u b (((sortPartsIn parts).map (fun p => p.data)).flatten)).1])], (write_data (uploadParts sys u b k uid parts) u b (((sortPartsIn parts).map (fun p => p.data)).flatten)).2.queue, (write_data (uploadParts sys u b k uid parts) u b (((sortPartsIn parts).map (fun p => p.data)).flatten)).2.nextQid, (write_data (uploadParts sys u b k uid parts) u b (((sortPartsIn parts).map (fun p => p.data)).flatten)).2.delLog⟩ : Sys).delLog ++ dl⟩ : Sys)) := by
    simp only [s3_complete_multipart, hsorted, hrp,
      write_s3_data_to_storage, put_metadata, hexk1, Bool.false_eq_true,
      if_false]
    rw [hrec]
  -- the real key's row in the final state
  have hfind2 : ((write_data (uploadParts sys u b k uid parts) u b (((sortPartsIn parts).map (fun p => p.data)).flatten)).2.haystack ++ [HRow.mk u b k (serialize_offset_size [(write_data (uploadParts sys u b k uid parts) u b (((sortPartsIn parts).map (fun p => p.data)).flatten)).1])]).find? (rowMatches u b k)
      = some (HRow.mk u b k (serialize_offset_size [(write_data (uploadParts sys u b k uid parts) u b (((sortPartsIn parts).map (fun p => p.data)).flatten)).1])) := by
    have hfk1w : ((write_data (uploadParts sys u b k uid parts) u b (((sortPartsIn parts).map (fun p => p.data)).flatten)).2.haystack).find? (rowMatches u b k) = none := hfk1
    rw [find?_append_none hfk1w]
    rw [List.find?_cons_of_pos _ (by simp [rowMatches])]
  have hfindF : ((⟨(⟨(write_data (uploadParts sys u b k uid parts) u b (((sortPartsIn parts).map (fun p => p.data)).flatten)).2.logs, (write_data (uploadParts sys u b k uid parts) u b (((sortPartsIn parts).map (fun p => p.data)).flatten)).2.haystack ++ [HRow.mk u b k (serialize_offset_size [(write_data (uploadParts sys u b k uid parts) u b (((sortPartsIn parts).map (fun p => p.data)).flatten)).1])], (write_data (uploadParts sys u b k uid parts) u b (((sortPartsIn parts).map (fun p => p.data)).flatten)).2.queue, (write_data (uploadParts sys u b k uid parts) u b (((sortPartsIn parts).map (fun p => p.data)).flatten)).2.nextQid, (write_data (uploadParts sys u b k uid parts) u b (((sortPartsIn parts).map (fun p => p.data)).flatten)).2.delLog⟩ : Sys).logs, deleteKeys u b (⟨(write_data (uploadParts sys u b k uid parts) u b (((sortPartsIn parts).map (fun p => p.data)).flatten)).2.logs, (write_data (uploadParts sys u b k uid parts) u b (((sortPartsIn parts).map (fun p => p.data)).flatten)).2.haystack ++ [HRow.mk u b k (serialize_offset_size [(write_data (uploadParts sys u b k uid parts) u b (((sortPartsIn parts).map (fun p => p.data)).flatten)).1])], (write_data (uploadParts sys u b k uid parts) u b (((sortPartsIn parts).map (fun p => p.data)).flatten)).2.queue, (write_data (uploadParts sys u b k uid parts) u b (((sortPartsIn parts).map (fun p => p.data)).flatten)).2.nextQid, (write_data (uploadParts sys u b k uid parts) u b (((sortPartsIn parts).map (fun p => p.data)).flatten)).2.delLog⟩ : Sys).haystack ((sortPartsIn parts).map (fun p => (p.num, mkPartKey k p.numStr uid))), (⟨(write_data (uploadParts sys u b k uid parts) u b (((sortPartsIn parts).map (fun p => p.data)).flatten)).2.logs, (write_data (uploadParts sys u b k uid parts) u b (((sortPartsIn parts).map (fun p => p.data)).flatten)).2.haystack ++ [HRow.mk u b k (serialize_offset_size [(write_data (uploadParts sys u b k uid parts) u b (((sortPartsIn parts).map (fun p => p.data)).flatten)).1])], (write_data (uploadParts sys u b k uid parts) u b (((sortPartsIn parts).map (fun p => p.data)).flatten)).2.queue, (write_data (uploadParts sys u b k uid parts) u b (((sortPartsIn parts).map (fun p => p.data)).flatten)).2.nextQid, (write_data (uploadParts sys u b k uid parts) u b (((sortPartsIn parts).map (fun p => p.data)).flatten)).2.delLog⟩ : Sys).queue, (⟨(write_data (uploadParts sys u b k uid parts) u b (((sortPartsIn parts).map (fun p => p.data)).flatten)).2.logs, (write_data (uploadParts sys u b k uid parts) u b (((sortPartsIn parts).map (fun p => p.data)).flatten)).2.haystack ++ [HRow.mk u b k (serialize_offset_size [(write_data (uploadParts sys u b k uid parts) u b (((sortPartsIn parts).map (fun p => p.data)).flatten)).1])], (write_data (uploadParts sys u b k uid parts) u b (((sortPartsIn parts).map (fun p => p.data)).flatten)).2.queue, (write_data (uploadParts sys u b k uid parts) u b (((sortPartsIn parts).map (fun p => p.data)).flatten)).2.nextQid, (write_data (uploadParts sys u b k uid parts) u b (((sortPartsIn parts).map (fun p => p.data)).flatten)).2.delLog⟩ : Sys).nextQid, (⟨(write_data (uploadParts sys u b k uid parts) u b (((sortPartsIn parts).map (fun p => p.data)).flatten)).2.logs, (write_data (uploadParts sys u b k uid parts) u b (((sortPartsIn parts).map (fun p => p.data)).flatten)).2.haystack ++ [HRow.mk u b k (serialize_offset_size [(write_data (uploadParts sys u b k uid parts) u b (((sortPartsIn parts).map (fun p => p.data)).flatten)).1])], (write_data (uploadParts sys u b k uid parts) u b (((sortPartsIn parts).map (fun p => p.data)).flatten)).2.queue, (write_data (uploadParts sys u b k uid parts) u b (((sortPartsIn parts).map (fun p => p.data)).flatten)).2.nextQid, (write_data (uploadParts sys u b k uid parts) u b (((sortPartsIn parts).map (fun p => p.data)).flatten)).2.delLog⟩ : Sys).delLog ++ dl⟩ : Sys)).haystack.find? (rowMatches u b k)
      = some (HRow.mk u b k (serialize_offset_size [(write_data (uploadParts sys u b k uid parts) u b (((sortPartsIn parts).map (fun p => p.data)).flatten)).1])) := by
    show (deleteKeys u b ((write_data (uploadParts sys u b k uid parts) u b (((sortPartsIn parts).map (fun p => p.data)).flatten)).2.haystack ++ [HRow.mk u b k (serialize_offset_size [(write_data (uploadParts sys u b k uid parts) u b (((sortPartsIn parts).map (fun p => p.data)).flatten)).1])]) ((sortPartsIn parts).map (fun p => (p.num, mkPartKey k p.numStr uid)))).find?
      (rowMatches u b k) = some (HRow.mk u b k (serialize_offset_size [(write_data (uploadParts sys u b k uid parts) u b (((sortPartsIn parts).map (fun p => p.data)).flatten)).1]))
    rw [find?_deleteKeys u b _ ((sortPartsIn parts).map (fun p => (p.num, mkPartKey k p.numStr uid))) _ ?_]
    · exact hfind2
    · intro q hq x hx
      rw [List.mem_map] at hq
      obtain ⟨p, hp, hq'⟩ := hq
      subst hq'
      simp only [rowMatches, decide_eq_true_eq] at hx
      simp only [rowMatches, decide_eq_false_iff_not, not_and]
      intro _ _ hxk
      apply mkPartKey_ne_key k p.numStr uid
      rw [← hxk]
      exact hx.2.2
  -- the final read of the stored concatenation
  have hrdF : read_data ((⟨(⟨(write_data (uploadParts sys u b k uid parts) u b (((sortPartsIn parts).map (fun p => p.data)).flatten)).2.logs, (write_data (uploadParts sys u b k uid parts) u b (((sortPartsIn parts).map (fun p => p.data)).flatten)).2.haystack ++ [HRow.mk u b k (serialize_offset_size [(write_data (uploadParts sys u b k uid parts) u b (((sortPartsIn parts).map (fun p => p.data)).flatten)).1])], (write_data (uploadParts sys u b k uid parts) u b (((sortPartsIn parts).map (fun p => p.data)).flatten)).2.queue, (write_data (uploadParts sys u b k uid parts) u b (((sortPartsIn parts).map (fun p => p.data)).flatten)).2.nextQid, (write_data (uploadParts sys u b k uid parts) u b (((sortPartsIn parts).map (fun p => p.data)).flatten)).2.delLog⟩ : Sys).logs, deleteKeys u b (⟨(write_data (uploadParts sys u b k uid parts) u b (((sortPartsIn parts).map (fun p => p.data)).flatten)).2.logs, (write_data (uploadParts sys u b k uid parts) u b (((sortPartsIn parts).map (fun p => p.data)).flatten)).2.haystack ++ [HRow.mk u b k (serialize_offset_size [(write_data (uploadParts sys u b k uid parts) u b (((sortPartsIn parts).map (fun p => p.data)).flatten)).1])], (write_data (uploadParts sys u b k uid parts) u b (((sortPartsIn parts).map (fun p => p.data)).flatten)).2.queue, (write_data (uploadParts sys u b k uid parts) u b (((sortPartsIn parts).map (fun p => p.data)).flatten)).2.nextQid, (write_data (uploadParts sys u b k uid parts) u b (((sortPartsIn parts).map (fun p => p.data)).flatten)).2.delLog⟩ : Sys).haystack ((sortPartsIn parts).map (fun p => (p.num, mkPartKey k p.numStr uid))), (⟨(write_data (uploadParts sys u b k uid parts) u b (((sortPartsIn parts).map (fun p => p.data)).flatten)).2.logs, (write_data (uploadParts sys u b k uid parts) u b (((sortPartsIn parts).map (fun p => p.data)).flatten)).2.haystack ++ [HRow.mk u b k (serialize_offset_size [(write_data (uploadParts sys u b k uid parts) u b (((sortPartsIn parts).map (fun p => p.data)).flatten)).1])], (write_data (uploadParts sys u b k uid parts) u b (((sortPartsIn parts).map (fun p => p.data)).flatten)).2.queue, (write_data (uploadParts sys u b k uid parts) u b (((sortPartsIn parts).map (fun p => p.data)).flatten)).2.nextQid, (write_data (uploadParts sys u b k uid parts) u b (((sortPartsIn parts).map (fun p => p.data)).flatten)).2.delLog⟩ : Sys).queue, (⟨(write_data (uploadParts sys u b k uid parts) u b (((sortPartsIn parts).map (fun p => p.data)).flatten)).2.logs, (write_data (uploadParts sys u b k uid parts) u b (((sortPartsIn parts).map (fun p => p.data)).flatten)).2.haystack ++ [HRow.mk u b k (serialize_offset_size [(write_data (uploadParts sys u b k uid parts) u b (((sortPartsIn parts).map (fun p => p.data)).flatten)).1])], (write_data (uploadParts sys u b k uid parts) u b (((sortPartsIn parts).map (fun p => p.data)).flatten)).2.queue, (write_data (uploadParts sys u b k uid parts) u b (((sortPartsIn parts).map (fun p => p.data)).flatten)).2.nextQid, (write_data (uploadParts sys u b k uid parts) u b (((sortPartsIn parts).map (fun p => p.data)).flatten)).2.delLog⟩ : Sys).nextQid, (⟨(write_data (uploadParts sys u b k uid parts) u b (((sortPartsIn parts).map (fun p => p.data)).flatten)).2.logs, (write_data (uploadParts sys u b k uid parts) u b (((sortPartsIn parts).map (fun p => p.data)).flatten)).2.haystack ++ [HRow.mk u b k (serialize_offset_size [(write_data (uploadParts sys u b k uid parts) u b (((sortPartsIn parts).map (fun p => p.data)).flatten)).1])], (write_data (uploadParts sys u b k uid parts) u b (((sortPartsIn parts).map (fun p => p.data)).flatten)).2.queue, (write_data (uploadParts sys u b k uid parts) u b (((sortPartsIn parts).map (fun p => p.data)).flatten)).2.nextQid, (write_data (uploadParts sys u b k uid parts) u b (((sortPartsIn parts).map (fun p => p.data)).flatten)).2.delLog⟩ : Sys).delLog ++ dl⟩ : Sys)) u b (write_data (uploadParts sys u b k uid parts) u b (((sortPartsIn parts).map (fun p => p.data)).flatten)).1.1 (write_data (uploadParts sys u b k uid parts) u b (((sortPartsIn parts).map (fun p => p.data)).flatten)).1.2
      = some (((sortPartsIn parts).map (fun p => p.data)).flatten) :=
    read_after_write (uploadParts sys u b k uid parts) u b (((sortPartsIn parts).map (fun p => p.data)).flatten)
  have hoffb : (write_data (uploadParts sys u b k uid parts) u b (((sortPartsIn parts).map (fun p => p.data)).flatten)).1.1 < 256 ^ 8 := by
    rw [show (write_data (uploadParts sys u b k uid parts) u b (((sortPartsIn parts).map (fun p => p.data)).flatten)).1.1 = logLen (uploadParts sys u b k uid parts) u b
      from rfl, hoffC]
    omega
  have hlenb : (write_data (uploadParts sys u b k uid parts) u b (((sortPartsIn parts).map (fun p => p.data)).flatten)).1.2 < 256 ^ 8 := by
    rw [show (write_data (uploadParts sys u b k uid parts) u b (((sortPartsIn parts).map (fun p => p.data)).flatten)).1.2 = ((((sortPartsIn parts).map (fun p => p.data)).flatten)).length from rfl, hClen]
    omega
  have hget := s3_get_spec ((⟨(⟨(write_data (uploadParts sys u b k uid parts) u b (((sortPartsIn parts).map (fun p => p.data)).flatten)).2.logs, (write_data (uploadParts sys u b k uid parts) u b (((sortPartsIn parts).map (fun p => p.data)).flatten)).2.haystack ++ [HRow.mk u b k (serialize_offset_size [(write_data (uploadParts sys u b k uid parts) u b (((sortPartsIn parts).map (fun p => p.data)).flatten)).1])], (write_data (uploadParts sys u b k uid parts) u b (((sortPartsIn parts).map (fun p => p.data)).flatten)).2.queue, (write_data (uploadParts sys u b k uid parts) u b (((sortPartsIn parts).map (fun p => p.data)).flatten)).2.nextQid, (write_data (uploadParts sys u b k uid parts) u b (((sortPartsIn parts).map (fun p => p.data)).flatten)).2.delLog⟩ : Sys).logs, deleteKeys u b (⟨(write_data (uploadParts sys u b k uid parts) u b (((sortPartsIn parts).map (fun p => p.data)).flatten)).2.logs, (write_data (uploadParts sys u b k uid parts) u b (((sortPartsIn parts).map (fun p => p.data)).flatten)).2.haystack ++ [HRow.mk u b k (serialize_offset_size [(write_data (uploadParts sys u b k uid parts) u b (((sortPartsIn parts).map (fun p => p.data)).flatten)).1])], (write_data (uploadParts sys u b k uid parts) u b (((sortPartsIn parts).map (fun p => p.data)).flatten)).2.queue, (write_data (uploadParts sys u b k uid parts) u b (((sortPartsIn parts).map (fun p => p.data)).flatten)).2.nextQid, (write_data (uploadParts sys u b k uid parts) u b (((sortPartsIn parts).map (fun p => p.data)).flatten)).2.delLog⟩ : Sys).haystack ((sortPartsIn parts).map (fun p => (p.num, mkPartKey k p.numStr uid))), (⟨(write_data (uploadParts sys u b k uid parts) u b (((sortPartsIn parts).map (fun p => p.data)).flatten)).2.logs, (write_data (uploadParts sys u b k uid parts) u b (((sortPartsIn parts).map (fun p => p.data)).flatten)).2.haystack ++ [HRow.mk u b k (serialize_offset_size [(write_data (uploadParts sys u b k uid parts) u b (((sortPartsIn parts).map (fun p => p.data)).flatten)).1])], (write_data (uploadParts sys u b k uid parts) u b (((sortPartsIn parts).map (fun p => p.data)).flatten)).2.queue, (write_data (uploadParts sys u b k uid parts) u b (((sortPartsIn parts).map (fun p => p.data)).flatten)).2.nextQid, (write_data (uploadParts sys u b k uid parts) u b (((sortPartsIn parts).map (fun p => p.data)).flatten)).2.delLog⟩ : Sys).queue, (⟨(write_data (uploadParts sys u b k uid parts) u b (((sortPartsIn parts).map (fun p => p.data)).flatten)).2.logs, (write_data (uploadParts sys u b k uid parts) u b (((sortPartsIn parts).map (fun p => p.data)).flatten)).2.haystack ++ [HRow.mk u b k (serialize_offset_size [(write_data (uploadParts sys u b k uid parts) u b (((sortPartsIn parts).map (fun p => p.data)).flatten)).1])], (write_data (uploadParts sys u b k uid parts) u b (((sortPartsIn parts).map (fun p => p.data)).flatten)).2.queue, (write_data (uploadParts sys u b k uid parts) u b (((sortPartsIn parts).map (fun p => p.data)).flatten)).2.nextQid, (write_data (uploadParts sys u b k uid parts) u b (((sortPartsIn parts).map (fun p => p.data)).flatten)).2.delLog⟩ : Sys).nextQid, (⟨(write_data (uploadParts sys u b k uid parts) u b (((sortPartsIn parts).map (fun p => p.data)).flatten)).2.logs, (write_data (uploadParts sys u b k uid parts) u b (((sortPartsIn parts).map (fun p => p.data)).flatten)).2.haystack ++ [HRow.mk u b k (serialize_offset_size [(write_data (uploadParts sys u b k uid parts) u b (((sortPartsIn parts).map (fun p => p.data)).flatten)).1])], (write_data (uploadParts sys u b k uid parts) u b (((sortPartsIn parts).map (fun p => p.data)).flatten)).2.queue, (write_data (uploadParts sys u b k uid parts) u b (((sortPartsIn parts).map (fun p => p.data)).flatten)).2.nextQid, (write_data (uploadParts sys u b k uid parts) u b (((sortPartsIn parts).map (fun p => p.data)).flatten)).2.delLog⟩ : Sys).delLog ++ dl⟩ : Sys)) u b k (write_data (uploadParts sys u b k uid parts) u b (((sortPartsIn parts).map (fun p => p.data)).flatten)).1.1 (write_data (uploadParts sys u b k uid parts) u b (((sortPartsIn parts).map (fun p => p.data)).flatten)).1.2 (((sortPartsIn parts).map (fun p => p.data)).flatten)
    hfindF hoffb hlenb hrdF
  refine ⟨?_, ?_, ?_, sortPartsIn_sorted parts, sortPartsIn_perm parts,
    ?_⟩
  · rw [hrun]
  · rw [hrun]
    show (s3_get_object ((⟨(⟨(write_data (uploadParts sys u b k uid parts) u b (((sortPartsIn parts).map (fun p => p.data)).flatten)).2.logs, (write_data (uploadParts sys u b k uid parts) u b (((sortPartsIn parts).map (fun p => p.data)).flatten)).2.haystack ++ [HRow.mk u b k (serialize_offset_size [(write_data (uploadParts sys u b k uid parts) u b (((sortPartsIn parts).map (fun p => p.data)).flatten)).1])], (write_data (uploadParts sys u b k uid parts) u b (((sortPartsIn parts).map (fun p => p.data)).flatten)).2.queue, (write_data (uploadParts sys u b k uid parts) u b (((sortPartsIn parts).map (fun p => p.data)).flatten)).2.nextQid, (write_data (uploadParts sys u b k uid parts) u b (((sortPartsIn parts).map (fun p => p.data)).flatten)).2.delLog⟩ : Sys).logs, deleteKeys u b (⟨(write_data (uploadParts sys u b k uid parts) u b (((sortPartsIn parts).map (fun p => p.data)).flatten)).2.logs, (write_data (uploadParts sys u b k uid parts) u b (((sortPartsIn parts).map (fun p => p.data)).flatten)).2.haystack ++ [HRow.mk u b k (serialize_offset_size [(write_data (uploadParts sys u b k uid parts) u b (((sortPartsIn parts).map (fun p => p.data)).flatten)).1])], (write_data (uploadParts sys u b k uid parts) u b (((sortPartsIn parts).map (fun p => p.data)).flatten)).2.queue, (write_data (uploadParts sys u b k uid parts) u b (((sortPartsIn parts).map (fun p => p.data)).flatten)).2.nextQid, (write_data (uploadParts sys u b k uid parts) u b (((sortPartsIn parts).map (fun p => p.data)).flatten)).2.delLog⟩ : Sys).haystack ((sortPartsIn parts).map (fun p => (p.num, mkPartKey k p.numStr uid))), (⟨(write_data (uploadParts sys u b k uid parts) u b (((sortPartsIn parts).map (fun p => p.data)).flatten)).2.logs, (write_data (uploadParts sys u b k uid parts) u b (((sortPartsIn parts).map (fun p => p.data)).flatten)).2.haystack ++ [HRow.mk u b k (serialize_offset_size [(write_data (uploadParts sys u b k uid parts) u b (((sortPartsIn parts).map (fun p => p.data)).flatten)).1])], (write_data (uploadParts sys u b k uid parts) u b (((sortPartsIn parts).map (fun p => p.data)).flatten)).2.queue, (write_data (uploadParts sys u b k uid parts) u b (((sortPartsIn parts).map (fun p => p.data)).flatten)).2.nextQid, (write_data (uploadParts sys u b k uid parts) u b (((sortPartsIn parts).map (fun p => p.data)).flatten)).2.delLog⟩ : Sys).queue, (⟨(write_data (uploadParts sys u b k uid parts) u b (((sortPartsIn parts).map (fun p => p.data)).flatten)).2.logs, (write_data (uploadParts sys u b k uid parts) u b (((sortPartsIn parts).map (fun p => p.data)).flatten)).2.haystack ++ [HRow.mk u b k (serialize_offset_size [(write_data (uploadParts sys u b k uid parts) u b (((sortPartsIn parts).map (fun p => p.data)).flatten)).1])], (write_data (uploadParts sys u b k uid parts) u b (((sortPartsIn parts).map (fun p => p.data)).flatten)).2.queue, (write_data (uploadParts sys u b k uid parts) u b (((sortPartsIn parts).map (fun p => p.data)).flatten)).2.nextQid, (write_data (uploadParts sys u b k uid parts) u b (((sortPartsIn parts).map (fun p => p.data)).flatten)).2.delLog⟩ : Sys).nextQid, (⟨(write_data (uploadParts sys u b k uid parts) u b (((sortPartsIn parts).map (fun p => p.data)).flatten)).2.logs, (write_data (uploadParts sys u b k uid parts) u b (((sortPartsIn parts).map (fun p => p.data)).flatten)).2.haystack ++ [HRow.mk u b k (serialize_offset_size [(write_data (uploadParts sys u b k uid parts) u b (((sortPartsIn parts).map (fun p => p.data)).flatten)).1])], (write_data (uploadParts sys u b k uid parts) u b (((sortPartsIn parts).map (fun p => p.data)).flatten)).2.queue, (write_data (uploadParts sys u b k uid parts) u b (((sortPartsIn parts).map (fun p => p.data)).flatten)).2.nextQid, (write_data (uploadParts sys u b k uid parts) u b (((sortPartsIn parts).map (fun p => p.data)).flatten)).2.delLog⟩ : Sys).delLog ++ dl⟩ : Sys)) u b k).1.status = 200
    rw [hget]
  · rw [hrun]
    show (s3_get_object ((⟨(⟨(write_data (uploadParts sys u b k uid parts) u b (((sortPartsIn parts).map (fun p => p.data)).flatten)).2.logs, (write_data (uploadParts sys u b k uid parts) u b (((sortPartsIn parts).map (fun p => p.data)).flatten)).2.haystack ++ [HRow.mk u b k (serialize_offset_size [(write_data (uploadParts sys u b k uid parts) u b (((sortPartsIn parts).map (fun p => p.data)).flatten)).1])], (write_data (uploadParts sys u b k uid parts) u b (((sortPartsIn parts).map (fun p => p.data)).flatten)).2.queue, (write_data (uploadParts sys u b k uid parts) u b (((sortPartsIn parts).map (fun p => p.data)).flatten)).2.nextQid, (write_data (uploadParts sys u b k uid parts) u b (((sortPartsIn parts).map (fun p => p.data)).flatten)).2.delLog⟩ : Sys).logs, deleteKeys u b (⟨(write_data (uploadParts sys u b k uid parts) u b (((sortPartsIn parts).map (fun p => p.data)).flatten)).2.logs, (write_data (uploadParts sys u b k uid parts) u b (((sortPartsIn parts).map (fun p => p.data)).flatten)).2.haystack ++ [HRow.mk u b k (serialize_offset_size [(write_data (uploadParts sys u b k uid parts) u b (((sortPartsIn parts).map (fun p => p.data)).flatten)).1])], (write_data (uploadParts sys u b k uid parts) u b (((sortPartsIn parts).map (fun p => p.data)).flatten)).2.queue, (write_data (uploadParts sys u b k uid parts) u b (((sortPartsIn parts).map (fun p => p.data)).flatten)).2.nextQid, (write_data (uploadParts sys u b k uid parts) u b (((sortPartsIn parts).map (fun p => p.data)).flatten)).2.delLog⟩ : Sys).haystack ((sortPartsIn parts).map (fun p => (p.num, mkPartKey k p.numStr uid))), (⟨(write_data (uploadParts sys u b k uid parts) u b (((sortPartsIn parts).map (fun p => p.data)).flatten)).2.logs, (write_data (uploadParts sys u b k uid parts) u b (((sortPartsIn parts).map (fun p => p.data)).flatten)).2.haystack ++ [HRow.mk u b k (serialize_offset_size [(write_data (uploadParts sys u b k uid parts) u b (((sortPartsIn parts).map (fun p => p.data)).flatten)).1])], (write_data (uploadParts sys u b k uid parts) u b (((sortPartsIn parts).map (fun p => p.data)).flatten)).2.queue, (write_data (uploadParts sys u b k uid parts) u b (((sortPartsIn parts).map (fun p => p.data)).flatten)).2.nextQid, (write_data (uploadParts sys u b k uid parts) u b (((sortPartsIn parts).map (fun p => p.data)).flatten)).2.delLog⟩ : Sys).queue, (⟨(write_data (uploadParts sys u b k uid parts) u b (((sortPartsIn parts).map (fun p => p.data)).flatten)).2.logs, (write_data (uploadParts sys u b k uid parts) u b (((sortPartsIn parts).map (fun p => p.data)).flatten)).2.haystack ++ [HRow.mk u b k (serialize_offset_size [(write_data (uploadParts sys u b k uid parts) u b (((sortPartsIn parts).map (fun p => p.data)).flatten)).1])], (write_data (uploadParts sys u b k uid parts) u b (((sortPartsIn parts).map (fun p => p.data)).flatten)).2.queue, (write_data (uploadParts sys u b k uid parts) u b (((sortPartsIn parts).map (fun p => p.data)).flatten)).2.nextQid, (write_data (uploadParts sys u b k uid parts) u b (((sortPartsIn parts).map (fun p => p.data)).flatten)).2.delLog⟩ : Sys).nextQid, (⟨(write_data (uploadParts sys u b k uid parts) u b (((sortPartsIn parts).map (fun p => p.data)).flatten)).2.logs, (write_data (uploadParts sys u b k uid parts) u b (((sortPartsIn parts).map (fun p => p.data)).flatten)).2.haystack ++ [HRow.mk u b k (serialize_offset_size [(write_data (uploadParts sys u b k uid parts) u b (((sortPartsIn parts).map (fun p => p.data)).flatten)).1])], (write_data (uploadParts sys u b k uid parts) u b (((sortPartsIn parts).map (fun p => p.data)).flatten)).2.queue, (write_data (uploadParts sys u b k uid parts) u b (((sortPartsIn parts).map (fun p => p.data)).flatten)).2.nextQid, (write_data (uploadParts sys u b k uid parts) u b (((sortPartsIn parts).map (fun p => p.data)).flatten)).2.delLog⟩ : Sys).delLog ++ dl⟩ : Sys)) u b k).1.body = (((sortPartsIn parts).map (fun p => p.data)).flatten)
    rw [hget]
    simp
  · rw [hrun]
    intro x hx hxu hxb
    have hx' : x ∈ deleteKeys u b ((write_data (uploadParts sys u b k uid parts) u b (((sortPartsIn parts).map (fun p => p.data)).flatten)).2.haystack ++ [HRow.mk u b k (serialize_offset_size [(write_data (uploadParts sys u b k uid parts) u b (((sortPartsIn parts).map (fun p => p.data)).flatten)).1])]) ((sortPartsIn parts).map (fun p => (p.num, mkPartKey k p.numStr uid))) := hx
    obtain ⟨hmem, hnom⟩ := mem_deleteKeys ((sortPartsIn parts).map (fun p => (p.num, mkPartKey k p.numStr uid))) _ hx'
    have hmem' : x ∈ (sys.haystack ++
        simRows u b k uid cur.length parts) ++ [HRow.mk u b k (serialize_offset_size [(write_data (uploadParts sys u b k uid parts) u b (((sortPartsIn parts).map (fun p => p.data)).flatten)).1])] := by
      have hmem2 : x ∈ (uploadParts sys u b k uid parts).haystack
          ++ [HRow.mk u b k (serialize_offset_size [(write_data (uploadParts sys u b k uid parts) u b (((sortPartsIn parts).map (fun p => p.data)).flatten)).1])] := hmem
      rw [hhay] at hmem2
      exact hmem2
    rcases List.mem_append.mp hmem' with hm | hm
    · rcases List.mem_append.mp hm with hm2 | hm2
      · exact hfresh x hm2 hxu hxb
      · obtain ⟨p, hp, _, _, hxkey⟩ := simRows_mem parts _ hm2
        have hqin : ((p.num, mkPartKey k p.numStr uid) : Int × Str)
            ∈ ((sortPartsIn parts).map (fun p => (p.num, mkPartKey k p.numStr uid))) :=
          List.mem_map_of_mem _ ((sortPartsIn_perm parts).mem_iff.mpr hp)
        have hfalse := hnom _ hqin
        have htrue : rowMatches u b (mkPartKey k p.numStr uid) x
            = true := by
          simp [rowMatches, hxu, hxb, hxkey]
        simp [htrue] at hfalse
    · have hk : x = HRow.mk u b k (serialize_offset_size [(write_data (uploadParts sys u b k uid parts) u b (((sortPartsIn parts).map (fun p => p.data)).flatten)).1]) := by simpa using hm
      rw [hk]
      exact patOK_self_false k uid

def sysM : Sys := ⟨[((['s'], ['m']), [])], [], [], 0, []⟩

def partsW : List PartIn := [⟨['2'], 2, [66, 66]⟩, ⟨['1'], 1, [65]⟩]

/-- Witness for C4: parts "BB" (number 2) and "A" (number 1) uploaded in
that order; completion stores "ABB" and leaves no part keys. -/
theorem C4_multipart_complete_witness :
    (s3_complete_multipart (uploadParts sysM ['s'] ['m'] ['g'] ['U']
      partsW) ['s'] ['m'] ['g'] ['U']).1.status = 200 ∧
    (s3_get_object (s3_complete_multipart (uploadParts sysM ['s'] ['m']
      ['g'] ['U'] partsW) ['s'] ['m'] ['g'] ['U']).2 ['s'] ['m']
      ['g']).1.status = 200 ∧
    (s3_get_object (s3_complete_multipart (uploadParts sysM ['s'] ['m']
      ['g'] ['U'] partsW) ['s'] ['m'] ['g'] ['U']).2 ['s'] ['m']
      ['g']).1.body =
      ((sortPartsIn partsW).map (fun p => p.data)).flatten ∧
    List.Pairwise (fun a c : PartIn => a.num ≤ c.num)
      (sortPartsIn partsW) ∧
    List.Perm (sortPartsIn partsW) partsW ∧
    (∀ x ∈ (s3_complete_multipart (uploadParts sysM ['s'] ['m'] ['g']
      ['U'] partsW) ['s'] ['m'] ['g'] ['U']).2.haystack,
      x.user = ['s'] → x.bucket = ['m'] →
      patOK ['g'] ['U'] x.key = false) :=
  C4_multipart_complete sysM ['s'] ['m'] ['g'] ['U'] partsW []
    (by rfl) (by decide) (by decide) (by decide) (by decide) (by rfl)
    (by decide)

end WD
